import Mathlib

/-!
# A verification development for the users-and-photos HTTP API (`app.go`)

The program is one Go file: eight gin handlers, one JWT middleware and the
routing table in `main`.  It sits on three outside collaborators, none of which
is code of the program: the gin router, the `jwt-go` token library and a gorm
handle onto a SQL Server database.

The embedding keeps the handlers and the middleware statement by statement.
The collaborators are represented as follows.

* gin: a request context `Ctx` carrying the request, the key/value store of
  `c.Set`, the abort flag of `c.Abort` and the response written by `c.JSON`.
  A handler is a function `Ctx → Ctx`; a route is the list of handlers `main`
  registers for it, run in order until one aborts.  The result of
  `ShouldBindJSON` into a struct is part of the request: either the decoder's
  error message or the bound struct.  Path identifiers are the numbers they
  denote.
* jwt-go: a structure `JwtLib` holding signing and decoding, with the one
  law that decoding under a key gives back the claims that were signed under
  it.  The validity check on the registered claims (`exp`, `iat`, `nbf`) is
  written out, in whole Unix seconds as the library does it.
* gorm over SQL Server: two tables as lists of rows, with the constraints the
  struct tags declare (primary keys, the `UserID` foreign key with
  `OnDelete:CASCADE`).  A `User` struct carries its `Photos` association, a
  row of the `users` table does not: `First` loads a user without photos, and
  `Create` and `Save` write the row and then save the photos of the struct
  under the user's identifier, as gorm does for a has-many association.  Every
  statement can in addition fail for a reason outside the tables (a lost
  connection, a timeout): the `Env` of a request says whether its reads and
  its writes do.

`CreatedAt`/`UpdatedAt` are maintained by gorm alone; no handler reads them
and the other columns never depend on them, so structs and rows carry the
remaining fields only.

Outside the embedding: a path identifier that is not a number (gorm would read
it as a condition of its own) and the collation the database compares emails
with (emails are compared exactly).

The file has the definitions first: data model, collaborators, the program,
a reference token library to run it on, the notions the statements use and
sample data.  The lemmas and the claims C1 to C10 follow; the schema
constraints the claims lean on (`DB.OwnersStored`, `DB.KeysUnique`) are shown
to hold in every reachable state (`reachable_schema`).
-/

namespace App

/-! ## Data model -/

deriving instance DecidableEq for Except

/-- Go struct `Photo`, and with it a row of the `photos` table. -/
structure Photo where
  ID : Nat
  Title : String
  Caption : String
  PhotoURL : String
  UserID : Nat
deriving DecidableEq, Inhabited

/-- Go struct `User`: the four columns and the `Photos` association (has-many
through `UserID`, with `OnUpdate:CASCADE` and `OnDelete:CASCADE`). -/
structure User where
  ID : Nat
  Username : String
  Email : String
  Password : String
  Photos : List Photo
deriving DecidableEq, Inhabited

/-- Row of the `users` table: the columns of `User`; the association is not a
column. -/
structure UserRow where
  ID : Nat
  Username : String
  Email : String
  Password : String
deriving DecidableEq, Inhabited

/-- Columns of a `User` struct, as written to its row. -/
def User.toRow (u : User) : UserRow :=
  { ID := u.ID, Username := u.Username, Email := u.Email, Password := u.Password }

/-- Struct that `First` fills from a row: the association is not preloaded. -/
def UserRow.toUser (r : UserRow) : User :=
  { ID := r.ID, Username := r.Username, Email := r.Email, Password := r.Password, Photos := [] }

/-- The anonymous struct `userCredentials` bound in `loginUser`. -/
structure Credentials where
  Email : String
  Password : String
deriving DecidableEq, Inhabited

/-- Registered claims of jwt-go that its validity check reads. -/
structure StandardClaims where
  ExpiresAt : Int
  IssuedAt : Int
  NotBefore : Int
deriving DecidableEq, Inhabited

/-- Go struct `Claims`: a username next to the embedded registered claims. -/
structure Claims extends StandardClaims where
  Username : String
deriving DecidableEq, Inhabited

/-! ## Time -/

/-- Go `time.Second`, in nanoseconds. -/
def Second : Int := 1000000000

/-- Go `time.Hour`, in nanoseconds. -/
def Hour : Int := 3600 * Second

/-- Go `Time.Unix()`: whole seconds since the epoch of an instant given in
nanoseconds, rounded down. -/
def Unix (t : Int) : Int := t / Second

/-! ## HTTP -/

def StatusOK : Nat := 200
def StatusBadRequest : Nat := 400
def StatusUnauthorized : Nat := 401
def StatusNotFound : Nat := 404
def StatusInternalServerError : Nat := 500

/-- JSON documents the handlers write: `gin.H` with the single key `error`,
`message` or `token`, or the array of photos. -/
inductive Payload where
  | error (msg : String)
  | message (msg : String)
  | token (t : String)
  | photos (ps : List Photo)
deriving DecidableEq

/-- Status code and JSON document of one `c.JSON` call. -/
structure Response where
  status : Nat
  body : Payload
deriving DecidableEq

/-! ## The database behind the gorm handle -/

/-- Stored state: the two tables and the identity counters of their `id`
columns. -/
structure DB where
  users : List UserRow
  photos : List Photo
  userSeq : Nat
  photoSeq : Nat
deriving DecidableEq

/-- Errors of a gorm statement: no row for `First`, or any other failure. -/
inductive DBError where
  | ErrRecordNotFound
  | failure
deriving DecidableEq

/-- What is outside the program during one request: the clock (nanoseconds
since the epoch) and whether the database statements of the request fail for a
reason outside the tables. -/
structure Env where
  now : Int
  readFails : Bool
  writeFails : Bool
deriving DecidableEq

/-- Row with the lowest key, the earlier one on a tie (`ORDER BY id` with
`LIMIT 1`). -/
def lowestID {α : Type} (key : α → Nat) : List α → Option α
  | [] => none
  | x :: xs =>
    match lowestID key xs with
    | none => some x
    | some y => if key y < key x then some y else some x

namespace DB

/-- Statement `db.Where("email = ?", email).First(&user)`. -/
def firstUserByEmail (db : DB) (env : Env) (email : String) : Except DBError User :=
  if env.readFails then .error .failure
  else
    match lowestID UserRow.ID (db.users.filter fun u => u.Email = email) with
    | some u => .ok u.toUser
    | none => .error .ErrRecordNotFound

/-- Statement `db.First(&user, userID)`. -/
def firstUser (db : DB) (env : Env) (id : Nat) : Except DBError User :=
  if env.readFails then .error .failure
  else
    match lowestID UserRow.ID (db.users.filter fun u => u.ID = id) with
    | some u => .ok u.toUser
    | none => .error .ErrRecordNotFound

/-- Statement `db.First(&photo, photoID)`. -/
def firstPhoto (db : DB) (env : Env) (id : Nat) : Except DBError Photo :=
  if env.readFails then .error .failure
  else
    match lowestID Photo.ID (db.photos.filter fun p => p.ID = id) with
    | some p => .ok p
    | none => .error .ErrRecordNotFound

/-- Statement `db.Find(&photos)`. -/
def findPhotos (db : DB) (env : Env) : Except DBError (List Photo) :=
  if env.readFails then .error .failure else .ok db.photos

/-- One photo of an association saved: gorm inserts it, and on a conflict on
`id` writes the `user_id` of the row that is there.  A zero `ID` takes the
next identity value. -/
def upsertPhoto (db : DB) (p : Photo) : DB :=
  if p.ID = 0 then
    { db with photos := db.photos ++ [{ p with ID := db.photoSeq + 1 }],
              photoSeq := db.photoSeq + 1 }
  else if db.photos.any fun q => q.ID = p.ID then
    { db with photos := db.photos.map fun q =>
                if q.ID = p.ID then { q with UserID := p.UserID } else q }
  else { db with photos := db.photos ++ [p], photoSeq := max db.photoSeq p.ID }

/-- The has-many association of a user struct saved after its row is written:
each photo of the struct gets the owner's identifier as `UserID` and is
upserted, in order. -/
def saveAssociations (db : DB) (owner : Nat) (photos : List Photo) : DB :=
  photos.foldl (fun d p => d.upsertPhoto { p with UserID := owner }) db

/-- Statement `db.Create(&user)`: the row is inserted, then the photos of the
struct are saved under the identifier of the row, all in one transaction.  A
zero `ID` takes the next identity value; a given `ID` must not be taken
(primary key). -/
def createUser (db : DB) (env : Env) (u : User) : Except DBError DB :=
  if env.writeFails then .error .failure
  else if u.ID = 0 then
    .ok (saveAssociations
      { db with users := db.users ++ [{ u.toRow with ID := db.userSeq + 1 }],
                userSeq := db.userSeq + 1 }
      (db.userSeq + 1) u.Photos)
  else if db.users.any fun v => v.ID = u.ID then .error .failure
  else
    .ok (saveAssociations
      { db with users := db.users ++ [u.toRow], userSeq := max db.userSeq u.ID }
      u.ID u.Photos)

/-- Statement `db.Create(&photo)`: an insert.  The owner must be a stored user
(foreign key); identity and primary key as for users. -/
def createPhoto (db : DB) (env : Env) (p : Photo) : Except DBError DB :=
  if env.writeFails then .error .failure
  else if !(db.users.any fun v => v.ID = p.UserID) then .error .failure
  else if p.ID = 0 then
    .ok { db with photos := db.photos ++ [{ p with ID := db.photoSeq + 1 }],
                  photoSeq := db.photoSeq + 1 }
  else if db.photos.any fun q => q.ID = p.ID then .error .failure
  else .ok { db with photos := db.photos ++ [p], photoSeq := max db.photoSeq p.ID }

/-- Statement `db.Save(&user)` on a loaded record: every column of the row
with that `ID` is written from the struct, then the photos of the struct are
saved under that identifier, which has to be that of a stored row (foreign
key). -/
def saveUser (db : DB) (env : Env) (u : User) : Except DBError DB :=
  if env.writeFails then .error .failure
  else if u.Photos ≠ [] ∧ !(db.users.any fun v => v.ID = u.ID) then .error .failure
  else
    .ok (saveAssociations
      { db with users := db.users.map fun v => if v.ID = u.ID then u.toRow else v }
      u.ID u.Photos)

/-- Statement `db.Delete(&user)`: the row with that `ID` goes, and with it, by
`OnDelete:CASCADE` on `Photos`, every photo whose `UserID` is that `ID`.  gorm
refuses a delete without a primary key value. -/
def deleteUser (db : DB) (env : Env) (u : User) : Except DBError DB :=
  if env.writeFails then .error .failure
  else if u.ID = 0 then .error .failure
  else .ok { db with users := db.users.filter fun v => v.ID ≠ u.ID,
                     photos := db.photos.filter fun p => p.UserID ≠ u.ID }

/-- Statement `db.Delete(&photo)`. -/
def deletePhoto (db : DB) (env : Env) (p : Photo) : Except DBError DB :=
  if env.writeFails then .error .failure
  else if p.ID = 0 then .error .failure
  else .ok { db with photos := db.photos.filter fun q => q.ID ≠ p.ID }

end DB

/-- Columns that `Updates` with a struct writes: the non-zero ones. -/
def Photo.assignNonZero (row upd : Photo) : Photo :=
  { ID := row.ID,
    Title := if upd.Title = "" then row.Title else upd.Title,
    Caption := if upd.Caption = "" then row.Caption else upd.Caption,
    PhotoURL := if upd.PhotoURL = "" then row.PhotoURL else upd.PhotoURL,
    UserID := if upd.UserID = 0 then row.UserID else upd.UserID }

/-- Statement `db.Model(&photo).Updates(&updatedPhoto)`: the non-zero columns
of `upd` are written to the row of `photo`.  A non-zero `ID` in `upd` would be
a write to the identity column, which the database rejects; a non-zero
`UserID` must be a stored user (foreign key). -/
def DB.updatesPhoto (db : DB) (env : Env) (photo upd : Photo) : Except DBError DB :=
  if env.writeFails then .error .failure
  else if photo.ID = 0 then .error .failure
  else if upd.ID ≠ 0 then .error .failure
  else if upd.UserID ≠ 0 ∧ !(db.users.any fun v => v.ID = upd.UserID) then .error .failure
  else .ok { db with photos := db.photos.map fun q =>
                       if q.ID = photo.ID then q.assignNonZero upd else q }

/-! ## The token library -/

/-- Dynamic value of the `Claims` field of a parsed token (a Go interface):
the program's own `*Claims`, or some other claims type. -/
inductive ClaimsValue where
  | custom (c : Claims)
  | other
deriving DecidableEq

/-- Go struct `jwt.Token`, as far as the program reads it. -/
structure Token where
  Claims : ClaimsValue
  Valid : Bool
deriving DecidableEq

/-- The HS256 part of jwt-go.  `SignedString key claims` serialises and signs;
`decode key s` splits `s`, checks the signature under `key` and unmarshals the
claims.  The law: signing under a key succeeds with a non-empty string that
decodes, under the same key, to the claims signed. -/
structure JwtLib where
  SignedString : String → Claims → Except String String
  decode : String → String → Option Claims
  decode_signed : ∀ key claims, ∃ s, SignedString key claims = .ok s ∧ s ≠ "" ∧
    decode key s = some claims

/-- jwt-go `verifyExp`. -/
def verifyExp (exp now : Int) (required : Bool) : Bool :=
  if exp = 0 then !required else decide (now ≤ exp)

/-- jwt-go `verifyIat`. -/
def verifyIat (iat now : Int) (required : Bool) : Bool :=
  if iat = 0 then !required else decide (now ≥ iat)

/-- jwt-go `verifyNbf`. -/
def verifyNbf (nbf now : Int) (required : Bool) : Bool :=
  if nbf = 0 then !required else decide (now ≥ nbf)

/-- jwt-go `StandardClaims.Valid`, with `now` the value of
`TimeFunc().Unix()`: none of the three time claims is required, each is
checked when it is set. -/
def StandardClaims.Valid (c : StandardClaims) (now : Int) : Bool :=
  verifyExp c.ExpiresAt now false && verifyIat c.IssuedAt now false &&
    verifyNbf c.NotBefore now false

/-- jwt-go `ParseWithClaims(tokenString, &Claims{}, keyFunc)` for a key
function that always answers `key`, at clock reading `now` (nanoseconds).  The
token it returns holds the `*Claims` that was passed in; the error is absent
exactly when the token is valid. -/
def JwtLib.ParseWithClaims (jwt : JwtLib) (tokenString key : String) (now : Int) :
    Token × Option String :=
  match jwt.decode key tokenString with
  | none => ({ Claims := .custom default, Valid := false }, some "token is malformed")
  | some c =>
    if c.toStandardClaims.Valid (Unix now) then ({ Claims := .custom c, Valid := true }, none)
    else ({ Claims := .custom c, Valid := false }, some "token is expired")

/-! ## gin -/

/-- What a handler can read of the request: the `Authorization` header as
`c.GetHeader` returns it (the empty string when the header is absent), the path
identifiers of `c.Param`, and the outcome of `c.ShouldBindJSON` into each of
the three structs the handlers bind (the decoder's error message, or the bound
struct). -/
structure Request where
  Authorization : String
  userId : Nat
  photoId : Nat
  bindUser : Except String User
  bindCredentials : Except String Credentials
  bindPhoto : Except String Photo

/-- Request context `*gin.Context` together with the global `db`. -/
structure Ctx where
  req : Request
  env : Env
  keys : List (String × String)
  aborted : Bool
  response : Option Response
  db : DB

namespace Ctx

/-- Mirror of `c.JSON(code, obj)`. -/
def JSON (c : Ctx) (code : Nat) (obj : Payload) : Ctx :=
  { c with response := some { status := code, body := obj } }

/-- Mirror of `c.Abort()`. -/
def Abort (c : Ctx) : Ctx := { c with aborted := true }

/-- Mirror of `c.Set(key, value)`. -/
def Set (c : Ctx) (key value : String) : Ctx :=
  { c with keys := (key, value) :: c.keys.filter fun kv => kv.1 ≠ key }

/-- Mirror of `c.Get(key)`. -/
def Get (c : Ctx) (key : String) : Option String :=
  (c.keys.find? fun kv => kv.1 = key).map fun kv => kv.2

/-- Mirror of `c.Next()` as the last statement of a handler: the rest of the
chain runs on the context as it stands, which `run` does after the handler
returns. -/
def Next (c : Ctx) : Ctx := c

end Ctx

/-- A gin `HandlerFunc`. -/
abbrev HandlerFunc := Ctx → Ctx

/-- The handler chain of a route: each handler in turn, and none after one
that aborted. -/
def run : List HandlerFunc → Ctx → Ctx
  | [], c => c
  | h :: hs, c => if (h c).aborted then h c else run hs (h c)

/-- Go builtin `len` on a string: the number of bytes of its UTF-8 encoding. -/
def len (s : String) : Nat := s.utf8ByteSize

/-! ## The program -/

/-- Handler `registerUser`. -/
def registerUser (c : Ctx) : Ctx :=
  match c.req.bindUser with
  | .error err => c.JSON StatusBadRequest (.error err)
  | .ok user =>
    if user.ID = 0 ∨ user.Username = "" ∨ user.Email = "" ∨ user.Password = "" then
      c.JSON StatusBadRequest (.error "ID, Username, Email, dan Password harus diisi")
    else if len user.Password < 6 then
      c.JSON StatusBadRequest (.error "Password harus memiliki panjang minimal 6 karakter")
    else
      match c.db.createUser c.env user with
      | .error _ => c.JSON StatusInternalServerError (.error "Gagal menyimpan user ke database")
      | .ok db => ({ c with db := db }).JSON StatusOK (.message "Registrasi berhasil")

/-- Function `createJWTToken`: claims with the user's name and the expiry one
day after the clock reading, in whole Unix seconds, signed with the literal
key. -/
def createJWTToken (jwt : JwtLib) (env : Env) (user : User) : Except String String :=
  let claims : Claims :=
    { Username := user.Username,
      ExpiresAt := Unix (env.now + Hour * 24), IssuedAt := 0, NotBefore := 0 }
  match jwt.SignedString "secret-key" claims with
  | .error err => .error err
  | .ok tokenString => .ok tokenString

/-- Handler `loginUser`. -/
def loginUser (jwt : JwtLib) (c : Ctx) : Ctx :=
  match c.req.bindCredentials with
  | .error err => c.JSON StatusBadRequest (.error err)
  | .ok userCredentials =>
    match c.db.firstUserByEmail c.env userCredentials.Email with
    | .error _ => c.JSON StatusUnauthorized (.error "Email atau password salah")
    | .ok user =>
      if userCredentials.Password ≠ user.Password then
        c.JSON StatusUnauthorized (.error "Email atau password salah")
      else
        match createJWTToken jwt c.env user with
        | .error _ => c.JSON StatusInternalServerError (.error "Gagal membuat token JWT")
        | .ok token => c.JSON StatusOK (.token token)

/-- Middleware `jwtAuthMiddleware`. -/
def jwtAuthMiddleware (jwt : JwtLib) (c : Ctx) : Ctx :=
  let tokenString := c.req.Authorization
  if tokenString = "" then
    (c.JSON StatusUnauthorized (.error "Token JWT tidak ditemukan")).Abort
  else
    match jwt.ParseWithClaims tokenString "secret-key" c.env.now with
    | (token, err) =>
      if err ≠ none ∨ !token.Valid then
        (c.JSON StatusUnauthorized (.error "Token JWT tidak valid")).Abort
      else
        match token.Claims with
        | .other =>
          (c.JSON StatusInternalServerError (.error "Gagal mendapatkan klaim token")).Abort
        | .custom claims => (c.Set "user" claims.Username).Next

/-- Handler `updateUser`. -/
def updateUser (c : Ctx) : Ctx :=
  let userID := c.req.userId
  match c.db.firstUser c.env userID with
  | .error _ => c.JSON StatusNotFound (.error "Pengguna tidak ditemukan")
  | .ok user =>
    match c.req.bindUser with
    | .error err => c.JSON StatusBadRequest (.error err)
    | .ok updatedUser =>
      if updatedUser.Username = "" ∨ updatedUser.Email = "" then
        c.JSON StatusBadRequest (.error "Username dan Email harus diisi")
      else
        let user := { user with Username := updatedUser.Username, Email := updatedUser.Email }
        match c.db.saveUser c.env user with
        | .error _ =>
          c.JSON StatusInternalServerError (.error "Gagal mengupdate informasi pengguna")
        | .ok db =>
          ({ c with db := db }).JSON StatusOK (.message "Informasi pengguna berhasil diupdate")

/-- Handler `deleteUser`. -/
def deleteUser (c : Ctx) : Ctx :=
  let userID := c.req.userId
  match c.db.firstUser c.env userID with
  | .error _ => c.JSON StatusNotFound (.error "User tidak ditemukan")
  | .ok user =>
    match c.db.deleteUser c.env user with
    | .error _ => c.JSON StatusInternalServerError (.error "Gagal menghapus user")
    | .ok db => ({ c with db := db }).JSON StatusOK (.message "User berhasil dihapus")

/-- Handler `addPhoto`. -/
def addPhoto (c : Ctx) : Ctx :=
  match c.req.bindPhoto with
  | .error err => c.JSON StatusBadRequest (.error err)
  | .ok photo =>
    if photo.Title = "" ∨ photo.Caption = "" ∨ photo.PhotoURL = "" ∨ photo.UserID = 0 then
      c.JSON StatusBadRequest (.error "Title, Caption, PhotoURL, dan UserID harus diisi")
    else
      match c.db.createPhoto c.env photo with
      | .error _ => c.JSON StatusInternalServerError (.error "Gagal menyimpan foto ke database")
      | .ok db => ({ c with db := db }).JSON StatusOK (.message "Foto berhasil ditambahkan")

/-- Handler `getPhotos`. -/
def getPhotos (c : Ctx) : Ctx :=
  match c.db.findPhotos c.env with
  | .error _ =>
    c.JSON StatusInternalServerError (.error "Gagal mendapatkan foto dari database")
  | .ok photos => c.JSON StatusOK (.photos photos)

/-- Handler `updatePhoto`. -/
def updatePhoto (c : Ctx) : Ctx :=
  let photoID := c.req.photoId
  match c.db.firstPhoto c.env photoID with
  | .error _ => c.JSON StatusNotFound (.error "Foto tidak ditemukan")
  | .ok photo =>
    match c.req.bindPhoto with
    | .error err => c.JSON StatusBadRequest (.error err)
    | .ok updatedPhoto =>
      if updatedPhoto.Title = "" ∨ updatedPhoto.Caption = "" ∨ updatedPhoto.PhotoURL = "" then
        c.JSON StatusBadRequest (.error "Title, Caption, dan PhotoURL harus diisi")
      else
        match c.db.updatesPhoto c.env photo updatedPhoto with
        | .error _ => c.JSON StatusInternalServerError (.error "Gagal mengupdate foto")
        | .ok db => ({ c with db := db }).JSON StatusOK (.message "Foto berhasil diupdate")

/-- Handler `deletePhoto`. -/
def deletePhoto (c : Ctx) : Ctx :=
  let photoID := c.req.photoId
  match c.db.firstPhoto c.env photoID with
  | .error _ => c.JSON StatusNotFound (.error "Foto tidak ditemukan")
  | .ok photo =>
    match c.db.deletePhoto c.env photo with
    | .error _ => c.JSON StatusInternalServerError (.error "Gagal menghapus foto")
    | .ok db => ({ c with db := db }).JSON StatusOK (.message "Foto berhasil dihapus")

/-- The eight routes registered in `main`, by method and path. -/
inductive Route where
  | POST_users_register
  | GET_users_login
  | PUT_users_userId
  | DELETE_users_userId
  | POST_photos
  | GET_photos
  | PUT_photos_photoId
  | DELETE_photos_photoId
deriving DecidableEq

/-- Routing table of `main`: the handlers registered for each route, with
`authMiddleware := jwtAuthMiddleware()`. -/
def main (jwt : JwtLib) : Route → List HandlerFunc :=
  let authMiddleware := jwtAuthMiddleware jwt
  fun
  | .POST_users_register => [registerUser]
  | .GET_users_login => [loginUser jwt]
  | .PUT_users_userId => [authMiddleware, updateUser]
  | .DELETE_users_userId => [authMiddleware, deleteUser]
  | .POST_photos => [authMiddleware, addPhoto]
  | .GET_photos => [getPhotos]
  | .PUT_photos_photoId => [authMiddleware, updatePhoto]
  | .DELETE_photos_photoId => [authMiddleware, deletePhoto]

/-- Context gin hands to the first handler of a chain. -/
def Ctx.fresh (req : Request) (env : Env) (db : DB) : Ctx :=
  { req := req, env := env, keys := [], aborted := false, response := none, db := db }

/-- One request served: the chain of its route run on a fresh context. -/
def serve (jwt : JwtLib) (r : Route) (req : Request) (env : Env) (db : DB) : Ctx :=
  run (main jwt r) (Ctx.fresh req env db)

/-! ## A reference instance of the token library -/

/-- Unary numeral: `n` times the letter `a`, closed by the letter `b`. -/
def writeUnary (n : Nat) : List Char := List.replicate n 'a' ++ ['b']

/-- Reader for `writeUnary`: the numeral at the head of a list and what
follows it. -/
def readUnary : List Char → Nat × List Char
  | [] => (0, [])
  | ch :: rest => if ch = 'a' then ((readUnary rest).1 + 1, (readUnary rest).2) else (0, rest)

/-- An instance of `JwtLib` without cryptography, to run the program on:
a token is the letter `j` followed by the three time claims as unary numerals
and the username, all in the clear, whatever the key. -/
def clearJwt : JwtLib where
  SignedString _ c :=
    .ok ⟨'j' :: (writeUnary (Equiv.intEquivNat c.ExpiresAt) ++
      (writeUnary (Equiv.intEquivNat c.IssuedAt) ++
      (writeUnary (Equiv.intEquivNat c.NotBefore) ++ c.Username.data)))⟩
  decode _ s :=
    match s.data with
    | 'j' :: rest =>
      let e := readUnary rest
      let i := readUnary e.2
      let n := readUnary i.2
      some { Username := ⟨n.2⟩, ExpiresAt := Equiv.intEquivNat.symm e.1,
             IssuedAt := Equiv.intEquivNat.symm i.1, NotBefore := Equiv.intEquivNat.symm n.1 }
    | _ => none
  decode_signed := by
    have read_write : ∀ (n : Nat) (rest : List Char),
        readUnary (writeUnary n ++ rest) = (n, rest) := by
      intro n rest
      induction n with
      | zero => simp [writeUnary, readUnary]
      | succ k ih =>
        simp only [writeUnary, List.append_assoc, List.singleton_append] at ih
        simp [writeUnary, List.replicate_succ, readUnary, ih]
    intro key claims
    refine ⟨_, rfl, ?_, ?_⟩
    · intro h
      have := congrArg String.data h
      simp at this
    · obtain ⟨⟨e, i, n⟩, u⟩ := claims
      simp [read_write]

/-! ## Notions the statements use -/

/-- Claims of a token the library accepts under the program's key at clock
reading `now`: it decodes and its time claims hold at that second. -/
def JwtLib.validClaims (jwt : JwtLib) (tokenString : String) (now : Int) : Option Claims :=
  match jwt.decode "secret-key" tokenString with
  | some c => if c.toStandardClaims.Valid (Unix now) then some c else none
  | none => none

/-- The foreign key of the schema: the owner of every stored photo is a stored
user. -/
def DB.OwnersStored (db : DB) : Prop :=
  ∀ p ∈ db.photos, ∃ u ∈ db.users, u.ID = p.UserID

/-- The primary keys of the schema: user identifiers are pairwise distinct and
so are photo identifiers, and none exceeds the identity counter of its table. -/
def DB.KeysUnique (db : DB) : Prop :=
  (db.users.map UserRow.ID).Nodup ∧ (∀ u ∈ db.users, u.ID ≤ db.userSeq) ∧
  (db.photos.map Photo.ID).Nodup ∧ (∀ p ∈ db.photos, p.ID ≤ db.photoSeq)

/-- Stored state with nothing in it. -/
def emptyDB : DB := { users := [], photos := [], userSeq := 0, photoSeq := 0 }

/-- Stored states the server can be in: the empty database, and the state left
by serving any request in such a state. -/
inductive Reachable (jwt : JwtLib) : DB → Prop where
  | empty : Reachable jwt emptyDB
  | served (r : Route) (req : Request) (env : Env) (db : DB) :
      Reachable jwt db → Reachable jwt (serve jwt r req env db).db

/-! ## Sample data -/

/-- A registered user, as stored. -/
def alice : UserRow :=
  { ID := 1, Username := "alice", Email := "a@x.com", Password := "secret1" }

/-- A photo owned by `alice`. -/
def sunset : Photo :=
  { ID := 1, Title := "old", Caption := "evening", PhotoURL := "http://x/1.png", UserID := 1 }

/-- Stored state with `alice` and her photo. -/
def sampleDB : DB := { users := [alice], photos := [sunset], userSeq := 1, photoSeq := 1 }

/-- An environment at clock reading `now` in which no statement fails. -/
def calm (now : Int) : Env := { now := now, readFails := false, writeFails := false }

/-- A request with no `Authorization` header, path identifiers 1 and a body
that is not JSON. -/
def bareRequest : Request :=
  { Authorization := "", userId := 1, photoId := 1,
    bindUser := .error "invalid character", bindCredentials := .error "invalid character",
    bindPhoto := .error "invalid character" }

/-- A second registered user, as stored. -/
def bob : UserRow :=
  { ID := 2, Username := "bob", Email := "b@x.com", Password := "hunter22" }

/-- Stored state with two users and three photos, two of them owned by
`alice`. -/
def albumDB : DB :=
  { users := [alice, bob],
    photos := [sunset, ⟨2, "dog", "rex", "http://x/2.png", 2⟩,
      ⟨3, "sea", "waves", "http://x/3.png", 1⟩],
    userSeq := 2, photoSeq := 3 }

/-! ## Lemmas on the collaborators -/

theorem lowestID_mem {α : Type} (key : α → Nat) :
    ∀ (l : List α) (x : α), lowestID key l = some x → x ∈ l := by
  intro l
  induction l with
  | nil => intro x h; simp [lowestID] at h
  | cons a t ih =>
    intro x h
    unfold lowestID at h
    cases hrec : lowestID key t with
    | none =>
      rw [hrec] at h
      simp at h
      simp [h]
    | some y =>
      rw [hrec] at h
      by_cases hlt : key y < key a
      · simp [hlt] at h
        subst h
        exact List.mem_cons_of_mem _ (ih y hrec)
      · simp [hlt] at h
        simp [h]

theorem lowestID_eq_none {α : Type} (key : α → Nat) (l : List α) :
    lowestID key l = none ↔ l = [] := by
  cases l with
  | nil => simp [lowestID]
  | cons a t =>
    unfold lowestID
    cases lowestID key t with
    | none => simp
    | some y => by_cases hlt : key y < key a <;> simp [hlt]

theorem firstUser_ok {db : DB} {env : Env} {id : Nat} {u : User}
    (h : db.firstUser env id = .ok u) :
    env.readFails = false ∧ u.toRow ∈ db.users ∧ u.ID = id ∧ u.Photos = [] := by
  unfold DB.firstUser at h
  cases hf : env.readFails with
  | true => simp [hf] at h
  | false =>
    simp only [hf] at h
    cases hl : lowestID UserRow.ID (db.users.filter fun u => u.ID = id) with
    | none => simp [hl] at h
    | some v =>
      simp [hl] at h
      subst h
      have := lowestID_mem _ _ _ hl
      simp only [List.mem_filter, decide_eq_true_eq] at this
      exact ⟨rfl, this.1, this.2, rfl⟩

theorem firstPhoto_ok {db : DB} {env : Env} {id : Nat} {p : Photo}
    (h : db.firstPhoto env id = .ok p) :
    env.readFails = false ∧ p ∈ db.photos ∧ p.ID = id := by
  unfold DB.firstPhoto at h
  cases hf : env.readFails with
  | true => simp [hf] at h
  | false =>
    simp only [hf] at h
    cases hl : lowestID Photo.ID (db.photos.filter fun p => p.ID = id) with
    | none => simp [hl] at h
    | some v =>
      simp [hl] at h
      subst h
      have := lowestID_mem _ _ _ hl
      simpa using this

/-- A stored user is found by its identifier when the read does not fail. -/
theorem firstUser_of_mem {db : DB} {env : Env} {u : UserRow} (hr : env.readFails = false)
    (hu : u ∈ db.users) : ∃ v, db.firstUser env u.ID = .ok v := by
  unfold DB.firstUser
  cases hl : lowestID UserRow.ID (db.users.filter fun v => v.ID = u.ID) with
  | none =>
    rw [lowestID_eq_none] at hl
    have : u ∈ db.users.filter fun v => v.ID = u.ID := by simp [hu]
    rw [hl] at this
    simp at this
  | some v => exact ⟨v.toUser, by simp [hr]⟩

/-! ## Saving an association -/

theorem upsertPhoto_users (db : DB) (p : Photo) :
    (db.upsertPhoto p).users = db.users ∧ (db.upsertPhoto p).userSeq = db.userSeq := by
  unfold DB.upsertPhoto
  split
  · exact ⟨rfl, rfl⟩
  · split <;> exact ⟨rfl, rfl⟩

theorem saveAssociations_nil (db : DB) (owner : Nat) : db.saveAssociations owner [] = db := rfl

theorem jwtAuthMiddleware_no_header (jwt : JwtLib) (c : Ctx) (h : c.req.Authorization = "") :
    jwtAuthMiddleware jwt c
      = (c.JSON StatusUnauthorized (.error "Token JWT tidak ditemukan")).Abort := by
  simp [jwtAuthMiddleware, h]

theorem jwtAuthMiddleware_invalid (jwt : JwtLib) (c : Ctx) (h : c.req.Authorization ≠ "")
    (hv : jwt.validClaims c.req.Authorization c.env.now = none) :
    jwtAuthMiddleware jwt c
      = (c.JSON StatusUnauthorized (.error "Token JWT tidak valid")).Abort := by
  unfold JwtLib.validClaims at hv
  unfold jwtAuthMiddleware JwtLib.ParseWithClaims
  cases hd : jwt.decode "secret-key" c.req.Authorization with
  | none => simp [h, hd]
  | some cl =>
    rw [hd] at hv
    cases hval : cl.toStandardClaims.Valid (Unix c.env.now) with
    | true => simp [hval] at hv
    | false => simp [h, hd, hval]

theorem jwtAuthMiddleware_valid (jwt : JwtLib) (c : Ctx) (claims : Claims)
    (h : c.req.Authorization ≠ "")
    (hv : jwt.validClaims c.req.Authorization c.env.now = some claims) :
    jwtAuthMiddleware jwt c = c.Set "user" claims.Username := by
  unfold JwtLib.validClaims at hv
  unfold jwtAuthMiddleware JwtLib.ParseWithClaims
  cases hd : jwt.decode "secret-key" c.req.Authorization with
  | none => simp [hd] at hv
  | some cl =>
    rw [hd] at hv
    cases hval : cl.toStandardClaims.Valid (Unix c.env.now) with
    | false => simp [hval] at hv
    | true =>
      simp [hval] at hv
      subst hv
      simp [h, hd, hval, Ctx.Next]

theorem run_single (h : HandlerFunc) (c : Ctx) : run [h] c = h c := by
  simp [run]

/-! ## Claims -/

/-- C1: on each of the five routes that `main` registers behind
`jwtAuthMiddleware`, a request whose `Authorization` header is absent or holds
no valid token is answered 401 and aborted, whatever the downstream handler is,
and the stored state is unchanged; a request with a valid token has the
username of its claims stored under the key `user` and the downstream handler
runs on that context. -/
theorem jwtAuthMiddleware_gates_protected_routes (jwt : JwtLib) (r : Route) (req : Request)
    (env : Env) (db : DB)
    (hr : r ∈ [Route.PUT_users_userId, Route.DELETE_users_userId, Route.POST_photos,
      Route.PUT_photos_photoId, Route.DELETE_photos_photoId]) :
    ∃ handler : HandlerFunc, main jwt r = [jwtAuthMiddleware jwt, handler] ∧
      ((req.Authorization = "" ∨ jwt.validClaims req.Authorization env.now = none) →
        (∃ msg, (serve jwt r req env db).response
          = some { status := StatusUnauthorized, body := .error msg }) ∧
        (serve jwt r req env db).aborted = true ∧
        (serve jwt r req env db).db = db ∧
        ∀ h : HandlerFunc,
          run [jwtAuthMiddleware jwt, h] (Ctx.fresh req env db) = serve jwt r req env db) ∧
      (∀ claims, req.Authorization ≠ "" →
        jwt.validClaims req.Authorization env.now = some claims →
        ((Ctx.fresh req env db).Set "user" claims.Username).Get "user" = some claims.Username ∧
        serve jwt r req env db = handler ((Ctx.fresh req env db).Set "user" claims.Username)) := by
  have key : ∀ handler : HandlerFunc, main jwt r = [jwtAuthMiddleware jwt, handler] →
      ((req.Authorization = "" ∨ jwt.validClaims req.Authorization env.now = none) →
        (∃ msg, (serve jwt r req env db).response
          = some { status := StatusUnauthorized, body := .error msg }) ∧
        (serve jwt r req env db).aborted = true ∧
        (serve jwt r req env db).db = db ∧
        ∀ h : HandlerFunc,
          run [jwtAuthMiddleware jwt, h] (Ctx.fresh req env db) = serve jwt r req env db) ∧
      (∀ claims, req.Authorization ≠ "" →
        jwt.validClaims req.Authorization env.now = some claims →
        ((Ctx.fresh req env db).Set "user" claims.Username).Get "user" = some claims.Username ∧
        serve jwt r req env db = handler ((Ctx.fresh req env db).Set "user" claims.Username)) := by
    intro handler hm
    have hreq : (Ctx.fresh req env db).req.Authorization = req.Authorization := rfl
    have henv : (Ctx.fresh req env db).env.now = env.now := rfl
    constructor
    · intro hbad
      have hmw : ∃ msg, jwtAuthMiddleware jwt (Ctx.fresh req env db)
          = ((Ctx.fresh req env db).JSON StatusUnauthorized (.error msg)).Abort := by
        by_cases he : req.Authorization = ""
        · exact ⟨_, jwtAuthMiddleware_no_header jwt _ he⟩
        · rcases hbad with h | h
          · exact absurd h he
          · exact ⟨_, jwtAuthMiddleware_invalid jwt _ he (by rw [hreq, henv]; exact h)⟩
      obtain ⟨msg, hmsg⟩ := hmw
      have hrun : ∀ h : HandlerFunc, run [jwtAuthMiddleware jwt, h] (Ctx.fresh req env db)
          = ((Ctx.fresh req env db).JSON StatusUnauthorized (.error msg)).Abort := by
        intro h
        simp [run, hmsg, Ctx.Abort]
      have hs : serve jwt r req env db
          = ((Ctx.fresh req env db).JSON StatusUnauthorized (.error msg)).Abort := by
        unfold serve
        rw [hm]
        exact hrun handler
      refine ⟨⟨msg, ?_⟩, ?_, ?_, ?_⟩
      · rw [hs]; rfl
      · rw [hs]; rfl
      · rw [hs]; rfl
      · intro h; rw [hs]; exact hrun h
    · intro claims hne hv
      have hmw := jwtAuthMiddleware_valid jwt (Ctx.fresh req env db) claims hne
        (by rw [hreq, henv]; exact hv)
      have hs : serve jwt r req env db
          = handler ((Ctx.fresh req env db).Set "user" claims.Username) := by
        unfold serve
        rw [hm]
        simp only [run, hmw]
        simp [Ctx.Set, Ctx.fresh]
      refine ⟨?_, hs⟩
      simp [Ctx.Set, Ctx.Get]
  simp only [List.mem_cons, List.mem_singleton, List.not_mem_nil, or_false] at hr
  rcases hr with h | h | h | h | h <;> subst h
  · exact ⟨updateUser, rfl, key _ rfl⟩
  · exact ⟨deleteUser, rfl, key _ rfl⟩
  · exact ⟨addPhoto, rfl, key _ rfl⟩
  · exact ⟨updatePhoto, rfl, key _ rfl⟩
  · exact ⟨deletePhoto, rfl, key _ rfl⟩

theorem jwtAuthMiddleware_gates_protected_routes_witness :
    Route.PUT_users_userId ∈ [Route.PUT_users_userId, Route.DELETE_users_userId,
      Route.POST_photos, Route.PUT_photos_photoId, Route.DELETE_photos_photoId] ∧
    (∃ msg, (serve clearJwt .PUT_users_userId bareRequest (calm 0) sampleDB).response
      = some { status := StatusUnauthorized, body := .error msg }) ∧
    (serve clearJwt .PUT_users_userId bareRequest (calm 0) sampleDB).db = sampleDB ∧
    serve clearJwt .PUT_users_userId { bareRequest with Authorization := "jbbbalice" } (calm 0)
        sampleDB
      = updateUser ((Ctx.fresh { bareRequest with Authorization := "jbbbalice" } (calm 0)
          sampleDB).Set "user" "alice") := by
  refine ⟨by simp, ?_, ?_, ?_⟩
  · obtain ⟨_, _, hbad, _⟩ := jwtAuthMiddleware_gates_protected_routes clearJwt
      .PUT_users_userId bareRequest (calm 0) sampleDB (by simp)
    exact (hbad (Or.inl rfl)).1
  · obtain ⟨_, _, hbad, _⟩ := jwtAuthMiddleware_gates_protected_routes clearJwt
      .PUT_users_userId bareRequest (calm 0) sampleDB (by simp)
    exact (hbad (Or.inl rfl)).2.2.1
  · obtain ⟨handler, hm, _, hgood⟩ := jwtAuthMiddleware_gates_protected_routes clearJwt
      .PUT_users_userId { bareRequest with Authorization := "jbbbalice" } (calm 0) sampleDB
      (by simp)
    have hh : handler = updateUser := by
      have : [jwtAuthMiddleware clearJwt, updateUser] = [jwtAuthMiddleware clearJwt, handler] := hm
      simp at this
      exact this.symm
    subst hh
    exact (hgood { Username := "alice", ExpiresAt := 0, IssuedAt := 0, NotBefore := 0 }
      (by decide) (by decide)).2

/-! ### Token lifetime -/

/-- Claims `createJWTToken` signs for `user` at clock reading `now`. -/
theorem createJWTToken_ok (jwt : JwtLib) (env : Env) (user : User) :
    ∃ tok, createJWTToken jwt env user = .ok tok ∧ tok ≠ "" ∧
      jwt.decode "secret-key" tok = some
        { Username := user.Username, ExpiresAt := Unix (env.now + Hour * 24),
          IssuedAt := 0, NotBefore := 0 } := by
  obtain ⟨s, hs, hne, hd⟩ := jwt.decode_signed "secret-key"
    { Username := user.Username, ExpiresAt := Unix (env.now + Hour * 24),
      IssuedAt := 0, NotBefore := 0 }
  exact ⟨s, by simp [createJWTToken, hs], hne, hd⟩

theorem validClaims_of_decode (jwt : JwtLib) (tok : String) (user : User) (exp t : Int)
    (hd : jwt.decode "secret-key" tok = some
      { Username := user.Username, ExpiresAt := exp, IssuedAt := 0, NotBefore := 0 }) :
    jwt.validClaims tok t =
      if exp = 0 ∨ Unix t ≤ exp then
        some { Username := user.Username, ExpiresAt := exp, IssuedAt := 0, NotBefore := 0 }
      else none := by
  unfold JwtLib.validClaims
  rw [hd]
  by_cases h0 : exp = 0
  · simp [StandardClaims.Valid, verifyExp, verifyIat, verifyNbf, h0]
  · by_cases hle : Unix t ≤ exp <;>
      simp [StandardClaims.Valid, verifyExp, verifyIat, verifyNbf, h0, hle]

/-- C5, as the code has it: the token `createJWTToken` returns for a user at
clock reading `T` carries the expiry in whole Unix seconds, and
`jwtAuthMiddleware` accepts it, resolving to the user's username, at every
clock reading whose Unix second is at most the Unix second of `T + 24h`, hence
at every reading up to `T + 24h`.  Unless the expiry second is 0 (which the
library reads as no expiry), it rejects the token with 401 at every reading
whose Unix second is later, hence at every reading from one second after
`T + 24h` on. -/
theorem token_accepted_through_expiry_second (jwt : JwtLib) (user : User) (issue : Env) :
    ∃ tok, createJWTToken jwt issue user = .ok tok ∧
      ∀ c : Ctx, c.req.Authorization = tok →
        (Unix c.env.now ≤ Unix (issue.now + Hour * 24) →
          jwtAuthMiddleware jwt c = c.Set "user" user.Username) ∧
        (c.env.now ≤ issue.now + Hour * 24 →
          jwtAuthMiddleware jwt c = c.Set "user" user.Username) ∧
        (Unix (issue.now + Hour * 24) ≠ 0 →
          Unix (issue.now + Hour * 24) < Unix c.env.now →
          jwtAuthMiddleware jwt c
            = (c.JSON StatusUnauthorized (.error "Token JWT tidak valid")).Abort) ∧
        (Unix (issue.now + Hour * 24) ≠ 0 →
          issue.now + Hour * 24 + Second ≤ c.env.now →
          jwtAuthMiddleware jwt c
            = (c.JSON StatusUnauthorized (.error "Token JWT tidak valid")).Abort) := by
  obtain ⟨tok, hok, hne, hd⟩ := createJWTToken_ok jwt issue user
  refine ⟨tok, hok, ?_⟩
  intro c hc
  have hne' : c.req.Authorization ≠ "" := by rw [hc]; exact hne
  have hv := validClaims_of_decode jwt tok user _ c.env.now hd
  have acc : Unix c.env.now ≤ Unix (issue.now + Hour * 24) →
      jwtAuthMiddleware jwt c = c.Set "user" user.Username := by
    intro hle
    have := jwtAuthMiddleware_valid jwt c
      { Username := user.Username, ExpiresAt := Unix (issue.now + Hour * 24),
        IssuedAt := 0, NotBefore := 0 } hne' (by rw [hc, hv]; simp [hle])
    simpa using this
  have rej : Unix (issue.now + Hour * 24) ≠ 0 →
      Unix (issue.now + Hour * 24) < Unix c.env.now →
      jwtAuthMiddleware jwt c
        = (c.JSON StatusUnauthorized (.error "Token JWT tidak valid")).Abort := by
    intro hexp hlt
    exact jwtAuthMiddleware_invalid jwt c hne'
      (by rw [hc, hv]; simp [hexp, not_le.mpr hlt])
  refine ⟨acc, ?_, rej, ?_⟩
  · intro hle
    apply acc
    unfold Unix Second Hour at *
    omega
  · intro hexp hle
    apply rej hexp
    unfold Unix Second Hour at *
    omega

theorem token_accepted_through_expiry_second_witness :
    Unix ((calm 1700000000123456789).now + Hour * 24) ≠ 0 ∧
    ∃ tok, createJWTToken clearJwt (calm 1700000000123456789) alice.toUser = .ok tok ∧
      jwtAuthMiddleware clearJwt
          (Ctx.fresh { bareRequest with Authorization := tok } (calm 1700086400999999999)
            sampleDB)
        = (Ctx.fresh { bareRequest with Authorization := tok } (calm 1700086400999999999)
            sampleDB).Set "user" "alice" ∧
      jwtAuthMiddleware clearJwt
          (Ctx.fresh { bareRequest with Authorization := tok } (calm 1700086401000000000)
            sampleDB)
        = ((Ctx.fresh { bareRequest with Authorization := tok } (calm 1700086401000000000)
            sampleDB).JSON StatusUnauthorized (.error "Token JWT tidak valid")).Abort := by
  have hexp : Unix ((calm 1700000000123456789).now + Hour * 24) ≠ 0 := by decide
  refine ⟨hexp, ?_⟩
  obtain ⟨tok, hok, h⟩ := token_accepted_through_expiry_second clearJwt alice.toUser
    (calm 1700000000123456789)
  refine ⟨tok, hok, ?_, ?_⟩
  · exact (h _ rfl).1
      (show Unix (1700086400999999999 : Int) ≤ Unix (1700000000123456789 + Hour * 24) by decide)
  · exact (h _ rfl).2.2.1 hexp
      (show Unix (1700000000123456789 + Hour * 24) < Unix (1700086401000000000 : Int) by decide)

/-- Counterexample to C5 as stated: a token issued to `alice` at clock reading
0 is still accepted half a second after `0 + 24h`. -/
theorem token_accepted_after_24h :
    ∃ tok, createJWTToken clearJwt (calm 0) alice.toUser = .ok tok ∧
      (calm 0).now + Hour * 24 < (calm 86400500000000).now ∧
      jwtAuthMiddleware clearJwt
          (Ctx.fresh { bareRequest with Authorization := tok } (calm 86400500000000) sampleDB)
        = (Ctx.fresh { bareRequest with Authorization := tok } (calm 86400500000000)
            sampleDB).Set "user" "alice" ∧
      (jwtAuthMiddleware clearJwt
          (Ctx.fresh { bareRequest with Authorization := tok } (calm 86400500000000)
            sampleDB)).aborted = false := by
  obtain ⟨tok, hok, hne, hd⟩ := createJWTToken_ok clearJwt (calm 0) alice.toUser
  have hv := validClaims_of_decode clearJwt tok alice.toUser _ (calm 86400500000000).now hd
  have hmw := jwtAuthMiddleware_valid clearJwt
    (Ctx.fresh { bareRequest with Authorization := tok } (calm 86400500000000) sampleDB) _ hne
    (by
      show clearJwt.validClaims tok (calm 86400500000000).now = _
      rw [hv]
      exact if_pos (Or.inr (by decide)))
  refine ⟨tok, hok, by decide, hmw, ?_⟩
  rw [hmw]
  rfl

/-! ### Login -/

/-- C2: for one stored state and two login requests with well-formed bodies,
the first naming an email no stored user has, the second a password that
differs from the password stored under its email, the two responses are the
same: 401 with the one generic message, whatever the environment of either
request; the stored state is not touched. -/
theorem loginUser_unknown_email_and_wrong_password_alike (jwt : JwtLib) (db : DB)
    (req₁ req₂ : Request) (env₁ env₂ : Env) (cred₁ cred₂ : Credentials)
    (hbody₁ : req₁.bindCredentials = .ok cred₁) (hbody₂ : req₂.bindCredentials = .ok cred₂)
    (hunknown : ∀ u ∈ db.users, u.Email ≠ cred₁.Email)
    (hwrong : ∀ u ∈ db.users, u.Email = cred₂.Email → u.Password ≠ cred₂.Password) :
    (serve jwt .GET_users_login req₁ env₁ db).response
      = (serve jwt .GET_users_login req₂ env₂ db).response ∧
    (serve jwt .GET_users_login req₁ env₁ db).response
      = some { status := StatusUnauthorized, body := .error "Email atau password salah" } ∧
    (serve jwt .GET_users_login req₁ env₁ db).db = db ∧
    (serve jwt .GET_users_login req₂ env₂ db).db = db := by
  have h₁ : serve jwt .GET_users_login req₁ env₁ db
      = (Ctx.fresh req₁ env₁ db).JSON StatusUnauthorized
          (.error "Email atau password salah") := by
    have hnone : lowestID UserRow.ID (db.users.filter fun u => u.Email = cred₁.Email) = none := by
      rw [lowestID_eq_none, List.filter_eq_nil_iff]
      intro u hu
      simpa using hunknown u hu
    simp only [serve, main, run_single, loginUser, Ctx.fresh, hbody₁, DB.firstUserByEmail, hnone]
    cases env₁.readFails <;> simp
  have h₂ : serve jwt .GET_users_login req₂ env₂ db
      = (Ctx.fresh req₂ env₂ db).JSON StatusUnauthorized
          (.error "Email atau password salah") := by
    simp only [serve, main, run_single, loginUser, Ctx.fresh, hbody₂, DB.firstUserByEmail]
    cases env₂.readFails with
    | true => simp
    | false =>
      cases hl : lowestID UserRow.ID (db.users.filter fun u => u.Email = cred₂.Email) with
      | none => simp
      | some u =>
        have hmem := lowestID_mem _ _ _ hl
        simp only [List.mem_filter, decide_eq_true_eq] at hmem
        have hne : cred₂.Password ≠ u.toUser.Password :=
          fun h => hwrong u hmem.1 hmem.2 h.symm
        simp [hne]
  rw [h₁, h₂]
  exact ⟨rfl, rfl, rfl, rfl⟩

theorem loginUser_unknown_email_and_wrong_password_alike_witness :
    (∀ u ∈ sampleDB.users, u.Email ≠ "nobody@x.com") ∧
    (∃ u ∈ sampleDB.users, u.Email = "a@x.com") ∧
    (serve clearJwt .GET_users_login
        { bareRequest with bindCredentials := .ok { Email := "nobody@x.com", Password := "secret1" } }
        (calm 0) sampleDB).response
      = (serve clearJwt .GET_users_login
        { bareRequest with bindCredentials := .ok { Email := "a@x.com", Password := "guess" } }
        (calm 0) sampleDB).response :=
  ⟨by decide, by decide,
    (loginUser_unknown_email_and_wrong_password_alike clearJwt sampleDB _ _ (calm 0) (calm 0)
      { Email := "nobody@x.com", Password := "secret1" } { Email := "a@x.com", Password := "guess" }
      rfl rfl (by decide) (by decide)).1⟩

/-! ### Registration -/

/-- The length check of `registerUser` in the unit the code measures with: a
registration request whose password has fewer than 6 bytes in UTF-8 (Go's
`len`) is answered 400 with an error message and nothing is stored, whatever
the other fields are and also when the body does not bind at all. -/
theorem registerUser_rejects_short_password (c : Ctx)
    (hshort : ∀ user, c.req.bindUser = .ok user → len user.Password < 6) :
    (∃ msg, (registerUser c).response
      = some { status := StatusBadRequest, body := .error msg }) ∧
    (registerUser c).db = c.db := by
  unfold registerUser
  cases hb : c.req.bindUser with
  | error e => exact ⟨⟨e, rfl⟩, rfl⟩
  | ok user =>
    have hlen := hshort user hb
    by_cases hreq : user.ID = 0 ∨ user.Username = "" ∨ user.Email = "" ∨ user.Password = ""
    · simp only [hreq, if_true]
      exact ⟨⟨_, rfl⟩, rfl⟩
    · simp only [hreq, if_false, hlen, if_true]
      exact ⟨⟨_, rfl⟩, rfl⟩

theorem registerUser_rejects_short_password_witness :
    (∀ user, (Ctx.fresh { bareRequest with bindUser := .ok ⟨2, "eve", "e@x.com", "12345", []⟩ }
        (calm 0) sampleDB).req.bindUser = .ok user → len user.Password < 6) ∧
    (registerUser (Ctx.fresh
        { bareRequest with bindUser := .ok ⟨2, "eve", "e@x.com", "12345", []⟩ }
        (calm 0) sampleDB)).db = sampleDB := by
  have h : ∀ user, (Ctx.fresh
      { bareRequest with bindUser := .ok ⟨2, "eve", "e@x.com", "12345", []⟩ }
      (calm 0) sampleDB).req.bindUser = .ok user → len user.Password < 6 := by
    intro user hu
    have : user = ⟨2, "eve", "e@x.com", "12345", []⟩ := by
      simp [Ctx.fresh] at hu
      exact hu.symm
    subst this
    decide
  exact ⟨h, (registerUser_rejects_short_password _ h).2⟩

/-- C3, at the failing input: the password `ééé` has 3 characters, fewer than
the 6 the claim and the handler's own message ask for, but `len` counts its 6
bytes, so `registerUser` answers 200 with the success message and stores the
user. -/
theorem registerUser_accepts_three_character_password :
    ("ééé" : String).length = 3 ∧ len "ééé" = 6 ∧
    (registerUser (Ctx.fresh
        { bareRequest with bindUser := .ok ⟨2, "eve", "e@x.com", "ééé", []⟩ }
        (calm 0) sampleDB)).response
      = some ⟨StatusOK, .message "Registrasi berhasil"⟩ ∧
    (registerUser (Ctx.fresh
        { bareRequest with bindUser := .ok ⟨2, "eve", "e@x.com", "ééé", []⟩ }
        (calm 0) sampleDB)).db.users = [alice, ⟨2, "eve", "e@x.com", "ééé"⟩] := by
  decide

theorem len_empty : len "" = 0 := by decide

/-- A string has at most as many characters as `len` counts bytes. -/
theorem length_le_len (s : String) : s.length ≤ len s := by
  obtain ⟨cs⟩ := s
  show cs.length ≤ String.utf8ByteSize ⟨cs⟩
  rw [String.utf8ByteSize_mk]
  induction cs with
  | nil => simp
  | cons a t ih =>
    have h1 : 1 ≤ a.utf8Size := Char.utf8Size_pos a
    simp only [String.utf8Len_cons, List.length_cons]
    omega

/-- The lookup by identifier returns the stored user when the read does not
fail and the identifier is that of one stored row only. -/
theorem firstUser_unique {db : DB} {env : Env} {user : UserRow} (hr : env.readFails = false)
    (hmem : user ∈ db.users) (huniq : ∀ v ∈ db.users, v.ID = user.ID → v = user) :
    db.firstUser env user.ID = .ok user.toUser := by
  obtain ⟨v, hv⟩ := firstUser_of_mem hr hmem
  obtain ⟨_, hvm, hvid, hvp⟩ := firstUser_ok hv
  have hrow : v.toRow = user := huniq _ hvm hvid
  have hvu : v = user.toUser := by
    obtain ⟨i, n, e, pw, ph⟩ := v
    simp only [User.toRow] at hrow
    subst hrow
    simp only at hvp
    subst hvp
    rfl
  rw [hv, hvu]

/-- C6, as the code has it: for a stored user addressed by the path identifier
and a well-formed body, when no database statement fails the claim holds as
written: an empty username or email gives 400 and leaves the stored state
unchanged, and otherwise the response is 200 and the stored record takes the
username and email of the body and keeps its identifier and password, whatever
identifier or password the body carries.  When the lookup fails the response
is 404, when the save fails it is 500, and the stored state is unchanged in
both cases. -/
theorem updateUser_overwrites_username_and_email (c : Ctx) (user : UserRow) (body : User)
    (hmem : user ∈ c.db.users) (hid : user.ID = c.req.userId)
    (huniq : ∀ v ∈ c.db.users, v.ID = user.ID → v = user)
    (hbody : c.req.bindUser = .ok body) :
    (c.env.readFails = true →
      (updateUser c).response = some ⟨StatusNotFound, .error "Pengguna tidak ditemukan"⟩ ∧
      (updateUser c).db = c.db) ∧
    (c.env.readFails = false → (body.Username = "" ∨ body.Email = "") →
      (updateUser c).response
        = some ⟨StatusBadRequest, .error "Username dan Email harus diisi"⟩ ∧
      (updateUser c).db = c.db) ∧
    (c.env.readFails = false → body.Username ≠ "" → body.Email ≠ "" →
      c.env.writeFails = true →
      (updateUser c).response
        = some ⟨StatusInternalServerError, .error "Gagal mengupdate informasi pengguna"⟩ ∧
      (updateUser c).db = c.db) ∧
    (c.env.readFails = false → body.Username ≠ "" → body.Email ≠ "" →
      c.env.writeFails = false →
      (updateUser c).response
        = some ⟨StatusOK, .message "Informasi pengguna berhasil diupdate"⟩ ∧
      (updateUser c).db.users = c.db.users.map (fun v =>
        if v.ID = user.ID then
          { ID := user.ID, Username := body.Username, Email := body.Email,
            Password := user.Password }
        else v) ∧
      ({ ID := user.ID, Username := body.Username, Email := body.Email,
         Password := user.Password } : UserRow) ∈ (updateUser c).db.users ∧
      (∀ v ∈ (updateUser c).db.users, v.ID = user.ID →
        v = { ID := user.ID, Username := body.Username, Email := body.Email,
              Password := user.Password }) ∧
      (updateUser c).db.photos = c.db.photos) := by
  refine ⟨?_, ?_, ?_, ?_⟩
  · intro hr
    simp [updateUser, DB.firstUser, hr, Ctx.JSON]
  · intro hr hempty
    have hf := firstUser_unique hr hmem huniq
    rw [hid] at hf
    simp [updateUser, hf, hbody, hempty, Ctx.JSON]
  · intro hr hn he hw
    have hf := firstUser_unique hr hmem huniq
    rw [hid] at hf
    simp [updateUser, hf, hbody, hn, he, DB.saveUser, hw, Ctx.JSON]
  · intro hr hn he hw
    have hf := firstUser_unique hr hmem huniq
    rw [hid] at hf
    have hdb : (updateUser c).db = { c.db with users := c.db.users.map (fun v =>
        if v.ID = user.ID then
          { ID := user.ID, Username := body.Username, Email := body.Email,
            Password := user.Password }
        else v) } := by
      simp [updateUser, hf, hbody, hn, he, DB.saveUser, hw, Ctx.JSON, UserRow.toUser,
        User.toRow, DB.saveAssociations]
    have hus : (updateUser c).db.users = c.db.users.map (fun v =>
        if v.ID = user.ID then
          { ID := user.ID, Username := body.Username, Email := body.Email,
            Password := user.Password }
        else v) := by rw [hdb]
    refine ⟨?_, hus, ?_, ?_, ?_⟩
    · simp [updateUser, hf, hbody, hn, he, DB.saveUser, hw, Ctx.JSON, UserRow.toUser]
    · rw [hus, List.mem_map]
      exact ⟨user, hmem, by simp⟩
    · intro v hv hvid
      rw [hus, List.mem_map] at hv
      obtain ⟨w, _, hw'⟩ := hv
      by_cases hwid : w.ID = user.ID
      · simp [hwid] at hw'
        exact hw'.symm
      · simp only [hwid, if_false] at hw'
        subst hw'
        exact absurd hvid hwid
    · rw [hdb]

theorem updateUser_overwrites_username_and_email_witness :
    alice ∈ sampleDB.users ∧ alice.ID = 1 ∧
    (∀ v ∈ sampleDB.users, v.ID = alice.ID → v = alice) ∧
    (updateUser (Ctx.fresh
        { bareRequest with bindUser := .ok ⟨7, "alice2", "a@x.com", "other", []⟩ }
        (calm 0) sampleDB)).response
      = some ⟨StatusOK, .message "Informasi pengguna berhasil diupdate"⟩ ∧
    (updateUser (Ctx.fresh
        { bareRequest with bindUser := .ok ⟨7, "alice2", "a@x.com", "other", []⟩ }
        (calm 0) sampleDB)).db.users
      = sampleDB.users.map (fun v =>
          if v.ID = alice.ID then
            { ID := alice.ID, Username := "alice2", Email := "a@x.com",
              Password := alice.Password }
          else v) := by
  have h := (updateUser_overwrites_username_and_email
    (Ctx.fresh { bareRequest with bindUser := .ok ⟨7, "alice2", "a@x.com", "other", []⟩ }
      (calm 0) sampleDB) alice ⟨7, "alice2", "a@x.com", "other", []⟩
    (by decide) rfl (by decide) rfl).2.2.2 rfl (by decide) (by decide) rfl
  exact ⟨by decide, rfl, by decide, h.1, h.2.1⟩

/-- Counterexample to C6 as stated: `alice` is stored, the body is well formed
with username and email present, the save fails, and the response is 500 with
the stored record unchanged. -/
theorem updateUser_save_failure_is_500 :
    (updateUser (Ctx.fresh
        { bareRequest with bindUser := .ok ⟨0, "alice2", "a@x.com", "", []⟩ }
        { now := 0, readFails := false, writeFails := true } sampleDB)).response
      = some ⟨StatusInternalServerError, .error "Gagal mengupdate informasi pengguna"⟩ ∧
    (updateUser (Ctx.fresh
        { bareRequest with bindUser := .ok ⟨0, "alice2", "a@x.com", "", []⟩ }
        { now := 0, readFails := false, writeFails := true } sampleDB)).db.users = [alice] := by
  decide

/-- C7, as the code has it: for a stored photo addressed by the path
identifier, a body that carries only a title is rejected with 400, because
title, caption and photo URL are all required, and the stored state is left
unchanged: caption and photoUrl keep their values and the new title is not
applied.  (When the lookup fails the response is 404, again with no change.) -/
theorem updatePhoto_title_only_rejected (c : Ctx) (photo : Photo) (title : String)
    (hmem : photo ∈ c.db.photos) (hid : photo.ID = c.req.photoId)
    (hbody : c.req.bindPhoto
      = .ok { ID := 0, Title := title, Caption := "", PhotoURL := "", UserID := 0 }) :
    (c.env.readFails = false →
      (updatePhoto c).response
        = some ⟨StatusBadRequest, .error "Title, Caption, dan PhotoURL harus diisi"⟩) ∧
    (c.env.readFails = true →
      (updatePhoto c).response = some ⟨StatusNotFound, .error "Foto tidak ditemukan"⟩) ∧
    (updatePhoto c).db = c.db ∧
    photo ∈ (updatePhoto c).db.photos := by
  have hdb : (updatePhoto c).db = c.db := by
    cases hf : c.db.firstPhoto c.env c.req.photoId with
    | error e => simp [updatePhoto, hf, Ctx.JSON]
    | ok p => simp [updatePhoto, hf, hbody, Ctx.JSON]
  refine ⟨?_, ?_, hdb, by rw [hdb]; exact hmem⟩
  · intro hr
    cases hf : c.db.firstPhoto c.env c.req.photoId with
    | error e =>
      exfalso
      unfold DB.firstPhoto at hf
      simp only [hr] at hf
      cases hl : lowestID Photo.ID (c.db.photos.filter fun p => p.ID = c.req.photoId) with
      | none =>
        rw [lowestID_eq_none] at hl
        have : photo ∈ c.db.photos.filter fun p => p.ID = c.req.photoId := by simp [hmem, hid]
        rw [hl] at this
        simp at this
      | some p => simp [hl] at hf
    | ok p => simp [updatePhoto, hf, hbody, Ctx.JSON]
  · intro hr
    simp [updatePhoto, DB.firstPhoto, hr, Ctx.JSON]

theorem updatePhoto_title_only_rejected_witness :
    sunset ∈ sampleDB.photos ∧ sunset.ID = 1 ∧
    (updatePhoto (Ctx.fresh { bareRequest with bindPhoto := .ok ⟨0, "new", "", "", 0⟩ }
        (calm 0) sampleDB)).response
      = some ⟨StatusBadRequest, .error "Title, Caption, dan PhotoURL harus diisi"⟩ :=
  ⟨by decide, rfl,
    (updatePhoto_title_only_rejected
      (Ctx.fresh { bareRequest with bindPhoto := .ok ⟨0, "new", "", "", 0⟩ } (calm 0) sampleDB)
      sunset "new" (by decide) rfl rfl).1 rfl⟩

/-- Counterexample to C7 as stated: on the stored photo titled `old`, a body
carrying only the title `new` is answered 400 and the stored title is still
`old`. -/
theorem updatePhoto_title_only_not_applied :
    (updatePhoto (Ctx.fresh { bareRequest with bindPhoto := .ok ⟨0, "new", "", "", 0⟩ }
        (calm 0) sampleDB)).response
      = some ⟨StatusBadRequest, .error "Title, Caption, dan PhotoURL harus diisi"⟩ ∧
    (updatePhoto (Ctx.fresh { bareRequest with bindPhoto := .ok ⟨0, "new", "", "", 0⟩ }
        (calm 0) sampleDB)).db.photos.map Photo.Title = ["old"] := by
  decide

/-! ### The foreign key is kept by every statement -/

theorem upsertPhoto_ownersStored {db : DB} {p : Photo} (hfk : db.OwnersStored)
    (hown : ∃ v ∈ db.users, v.ID = p.UserID) : (db.upsertPhoto p).OwnersStored := by
  intro q hq
  rw [(upsertPhoto_users db p).1]
  unfold DB.upsertPhoto at hq
  split at hq
  · simp only [List.mem_append, List.mem_singleton] at hq
    rcases hq with hq | hq
    · exact hfk q hq
    · subst hq
      exact hown
  · split at hq
    · obtain ⟨r, hr, hrq⟩ := List.mem_map.mp hq
      by_cases hid : r.ID = p.ID
      · rw [if_pos hid] at hrq
        subst hrq
        exact hown
      · rw [if_neg hid] at hrq
        subst hrq
        exact hfk r hr
    · simp only [List.mem_append, List.mem_singleton] at hq
      rcases hq with hq | hq
      · exact hfk q hq
      · subst hq
        exact hown

theorem saveAssociations_ownersStored (owner : Nat) (photos : List Photo) :
    ∀ db : DB, db.OwnersStored → (∃ v ∈ db.users, v.ID = owner) →
      (db.saveAssociations owner photos).OwnersStored := by
  induction photos with
  | nil => intro db hfk _; exact hfk
  | cons p t ih =>
    intro db hfk hown
    apply ih (db.upsertPhoto { p with UserID := owner })
    · exact upsertPhoto_ownersStored hfk hown
    · rw [(upsertPhoto_users db _).1]
      exact hown

theorem createUser_ownersStored {db db' : DB} {env : Env} {u : User}
    (h : db.createUser env u = .ok db') (hfk : db.OwnersStored) : db'.OwnersStored := by
  have grow : ∀ (row : UserRow) (seq : Nat),
      DB.OwnersStored { db with users := db.users ++ [row], userSeq := seq } := by
    intro row seq p hp
    obtain ⟨v, hv, hvid⟩ := hfk p hp
    exact ⟨v, by simp [hv], hvid⟩
  unfold DB.createUser at h
  split at h
  · simp at h
  · split at h
    · simp only [Except.ok.injEq] at h
      subst h
      exact saveAssociations_ownersStored _ _ _ (grow _ _)
        ⟨{ u.toRow with ID := db.userSeq + 1 }, by simp, rfl⟩
    · split at h
      · simp at h
      · simp only [Except.ok.injEq] at h
        subst h
        exact saveAssociations_ownersStored _ _ _ (grow _ _) ⟨u.toRow, by simp, rfl⟩

theorem createPhoto_ownersStored {db db' : DB} {env : Env} {p : Photo}
    (h : db.createPhoto env p = .ok db') (hfk : db.OwnersStored) : db'.OwnersStored := by
  unfold DB.createPhoto at h
  split at h
  · simp at h
  · split at h
    · simp at h
    · rename_i _ hown
      have hown' : ∃ v ∈ db.users, v.ID = p.UserID := by simpa using hown
      split at h
      · simp only [Except.ok.injEq] at h
        subst h
        intro q hq
        simp only [List.mem_append, List.mem_singleton] at hq
        rcases hq with hq | hq
        · exact hfk q hq
        · subst hq
          exact hown'
      · split at h
        · simp at h
        · simp only [Except.ok.injEq] at h
          subst h
          intro q hq
          simp only [List.mem_append, List.mem_singleton] at hq
          rcases hq with hq | hq
          · exact hfk q hq
          · subst hq
            exact hown'

theorem saveUser_ownersStored {db db' : DB} {env : Env} {u : User}
    (h : db.saveUser env u = .ok db') (hfk : db.OwnersStored) : db'.OwnersStored := by
  have hrows : ∀ v ∈ db.users,
      (if v.ID = u.ID then u.toRow else v) ∈
        (db.users.map fun v => if v.ID = u.ID then u.toRow else v) ∧
      (if v.ID = u.ID then u.toRow else v).ID = v.ID := by
    intro v hv
    refine ⟨List.mem_map.mpr ⟨v, hv, rfl⟩, ?_⟩
    by_cases hvu : v.ID = u.ID
    · rw [if_pos hvu]; exact hvu.symm
    · rw [if_neg hvu]
  have hwritten : DB.OwnersStored
      { db with users := db.users.map fun v => if v.ID = u.ID then u.toRow else v } := by
    intro p hp
    obtain ⟨v, hv, hvid⟩ := hfk p hp
    exact ⟨_, (hrows v hv).1, (hrows v hv).2.trans hvid⟩
  unfold DB.saveUser at h
  split at h
  · simp at h
  · split at h
    · simp at h
    · rename_i _ hguard
      simp only [Except.ok.injEq] at h
      subst h
      by_cases hnil : u.Photos = []
      · rw [hnil, saveAssociations_nil]
        exact hwritten
      · have hany : ∃ v ∈ db.users, v.ID = u.ID := by
          simp only [not_and, Bool.not_eq_true, Bool.not_eq_eq_eq_not, Bool.not_false,
            ne_eq] at hguard
          simpa using hguard hnil
        obtain ⟨v, hv, hvid⟩ := hany
        exact saveAssociations_ownersStored _ _ _ hwritten
          ⟨_, (hrows v hv).1, (hrows v hv).2.trans hvid⟩

theorem deleteUser_ownersStored {db db' : DB} {env : Env} {u : User}
    (h : db.deleteUser env u = .ok db') (hfk : db.OwnersStored) : db'.OwnersStored := by
  unfold DB.deleteUser at h
  split at h
  · simp at h
  · split at h
    · simp at h
    · simp only [Except.ok.injEq] at h
      subst h
      intro p hp
      simp only [List.mem_filter, decide_eq_true_eq] at hp
      obtain ⟨v, hv, hvid⟩ := hfk p hp.1
      refine ⟨v, ?_, hvid⟩
      simp only [List.mem_filter, decide_eq_true_eq]
      exact ⟨hv, by rw [hvid]; exact hp.2⟩

theorem deletePhoto_ownersStored {db db' : DB} {env : Env} {p : Photo}
    (h : db.deletePhoto env p = .ok db') (hfk : db.OwnersStored) : db'.OwnersStored := by
  unfold DB.deletePhoto at h
  split at h
  · simp at h
  · split at h
    · simp at h
    · simp only [Except.ok.injEq] at h
      subst h
      intro q hq
      simp only [List.mem_filter, decide_eq_true_eq] at hq
      exact hfk q hq.1

theorem updatesPhoto_ownersStored {db db' : DB} {env : Env} {photo upd : Photo}
    (h : db.updatesPhoto env photo upd = .ok db') (hfk : db.OwnersStored) :
    db'.OwnersStored := by
  unfold DB.updatesPhoto at h
  split at h
  · simp at h
  · split at h
    · simp at h
    · split at h
      · simp at h
      · split at h
        · simp at h
        · rename_i _ _ _ hown
          simp only [Except.ok.injEq] at h
          subst h
          intro q hq
          simp only [List.mem_map] at hq
          obtain ⟨row, hrow, hq⟩ := hq
          by_cases hr : row.ID = photo.ID
          · simp only [hr, if_true] at hq
            subst hq
            by_cases hz : upd.UserID = 0
            · simpa [Photo.assignNonZero, hz] using hfk row hrow
            · have : ∃ v ∈ db.users, v.ID = upd.UserID := by
                simp only [not_and, Bool.not_eq_true, Bool.not_eq_eq_eq_not, Bool.not_false,
                  ne_eq] at hown
                simpa using hown hz
              simpa [Photo.assignNonZero, hz] using this
          · simp only [hr, if_false] at hq
            subst hq
            exact hfk row hrow

/-- Every handler and the middleware keep the foreign key. -/
theorem handlers_keep_ownersStored (jwt : JwtLib) (c : Ctx) (hfk : c.db.OwnersStored) :
    (registerUser c).db.OwnersStored ∧ (loginUser jwt c).db.OwnersStored ∧
    (jwtAuthMiddleware jwt c).db.OwnersStored ∧ (updateUser c).db.OwnersStored ∧
    (deleteUser c).db.OwnersStored ∧ (addPhoto c).db.OwnersStored ∧
    (getPhotos c).db.OwnersStored ∧ (updatePhoto c).db.OwnersStored ∧
    (deletePhoto c).db.OwnersStored := by
  refine ⟨?_, ?_, ?_, ?_, ?_, ?_, ?_, ?_, ?_⟩
  · dsimp only [registerUser]
    repeat' split
    all_goals first
      | exact hfk
      | (rename_i hcr; exact createUser_ownersStored hcr hfk)
  · dsimp only [loginUser]
    repeat' split
    all_goals exact hfk
  · dsimp only [jwtAuthMiddleware]
    repeat' split
    all_goals exact hfk
  · dsimp only [updateUser]
    repeat' split
    all_goals first
      | exact hfk
      | (rename_i hcr; exact saveUser_ownersStored hcr hfk)
  · dsimp only [deleteUser]
    repeat' split
    all_goals first
      | exact hfk
      | (rename_i hcr; exact deleteUser_ownersStored hcr hfk)
  · dsimp only [addPhoto]
    repeat' split
    all_goals first
      | exact hfk
      | (rename_i hcr; exact createPhoto_ownersStored hcr hfk)
  · dsimp only [getPhotos]
    repeat' split
    all_goals exact hfk
  · dsimp only [updatePhoto]
    repeat' split
    all_goals first
      | exact hfk
      | (rename_i hcr; exact updatesPhoto_ownersStored hcr hfk)
  · dsimp only [deletePhoto]
    repeat' split
    all_goals first
      | exact hfk
      | (rename_i hcr; exact deletePhoto_ownersStored hcr hfk)

/-! ### The primary keys are kept by every statement -/

theorem nodup_append_fresh {α : Type} (key : α → Nat) (l : List α) (x : α)
    (hl : (l.map key).Nodup) (hx : ∀ y ∈ l, key y ≠ key x) :
    ((l ++ [x]).map key).Nodup := by
  rw [List.map_append, List.nodup_append]
  refine ⟨hl, by simp, ?_⟩
  intro a ha hb
  simp only [List.map_cons, List.map_nil, List.mem_singleton] at hb
  obtain ⟨y, hy, hya⟩ := List.mem_map.mp ha
  exact hx y hy (hya.trans hb)

theorem map_key_of_keeps {α : Type} (key : α → Nat) (f : α → α) (l : List α)
    (hf : ∀ x ∈ l, key (f x) = key x) : (l.map f).map key = l.map key := by
  rw [List.map_map]
  exact List.map_congr_left fun x hx => hf x hx

theorem upsertPhoto_keysUnique {db : DB} {p : Photo} (hk : db.KeysUnique) :
    (db.upsertPhoto p).KeysUnique := by
  obtain ⟨hu, hub, hp, hpb⟩ := hk
  unfold DB.upsertPhoto
  split
  · refine ⟨hu, hub, nodup_append_fresh Photo.ID _ _ hp ?_, ?_⟩
    · intro y hy
      have := hpb y hy
      show y.ID ≠ db.photoSeq + 1
      omega
    · intro q hq
      simp only [List.mem_append, List.mem_singleton] at hq
      rcases hq with hq | hq
      · have := hpb q hq
        show q.ID ≤ db.photoSeq + 1
        omega
      · subst hq
        exact Nat.le_refl _
  · split
    · have hkeep : ∀ q ∈ db.photos,
          (if q.ID = p.ID then { q with UserID := p.UserID } else q).ID = q.ID := by
        intro q _
        by_cases hq : q.ID = p.ID
        · rw [if_pos hq]
        · rw [if_neg hq]
      refine ⟨hu, hub, ?_, ?_⟩
      · show ((db.photos.map fun q =>
          if q.ID = p.ID then { q with UserID := p.UserID } else q).map Photo.ID).Nodup
        rw [map_key_of_keeps Photo.ID _ _ hkeep]
        exact hp
      · intro w hw
        obtain ⟨q, hq, hqw⟩ := List.mem_map.mp hw
        rw [← hqw, hkeep q hq]
        exact hpb q hq
    · rename_i _ hfree
      refine ⟨hu, hub, nodup_append_fresh Photo.ID _ _ hp ?_, ?_⟩
      · intro y hy hyu
        apply hfree
        simp only [List.any_eq_true, decide_eq_true_eq]
        exact ⟨y, hy, hyu⟩
      · intro q hq
        simp only [List.mem_append, List.mem_singleton] at hq
        rcases hq with hq | hq
        · exact Nat.le_trans (hpb q hq) (Nat.le_max_left _ _)
        · subst hq
          exact Nat.le_max_right _ _

theorem saveAssociations_keysUnique (owner : Nat) (photos : List Photo) :
    ∀ db : DB, db.KeysUnique → (db.saveAssociations owner photos).KeysUnique := by
  induction photos with
  | nil => intro db hk; exact hk
  | cons p t ih =>
    intro db hk
    exact ih (db.upsertPhoto { p with UserID := owner }) (upsertPhoto_keysUnique hk)

theorem createUser_keysUnique {db db' : DB} {env : Env} {u : User}
    (h : db.createUser env u = .ok db') (hk : db.KeysUnique) : db'.KeysUnique := by
  obtain ⟨hu, hub, hp, hpb⟩ := hk
  unfold DB.createUser at h
  split at h
  · simp at h
  · split at h
    · simp only [Except.ok.injEq] at h
      subst h
      apply saveAssociations_keysUnique
      refine ⟨nodup_append_fresh UserRow.ID _ _ hu ?_, ?_, hp, hpb⟩
      · intro y hy
        have := hub y hy
        show y.ID ≠ db.userSeq + 1
        omega
      · intro v hv
        simp only [List.mem_append, List.mem_singleton] at hv
        rcases hv with hv | hv
        · have := hub v hv
          show v.ID ≤ db.userSeq + 1
          omega
        · subst hv
          exact Nat.le_refl _
    · split at h
      · simp at h
      · rename_i _ _ hfree
        simp only [Except.ok.injEq] at h
        subst h
        apply saveAssociations_keysUnique
        refine ⟨nodup_append_fresh UserRow.ID _ _ hu ?_, ?_, hp, hpb⟩
        · intro y hy hyu
          apply hfree
          simp only [List.any_eq_true, decide_eq_true_eq]
          exact ⟨y, hy, hyu⟩
        · intro v hv
          simp only [List.mem_append, List.mem_singleton] at hv
          rcases hv with hv | hv
          · exact Nat.le_trans (hub v hv) (Nat.le_max_left _ _)
          · subst hv
            exact Nat.le_max_right _ _

theorem createPhoto_keysUnique {db db' : DB} {env : Env} {p : Photo}
    (h : db.createPhoto env p = .ok db') (hk : db.KeysUnique) : db'.KeysUnique := by
  obtain ⟨hu, hub, hp, hpb⟩ := hk
  unfold DB.createPhoto at h
  split at h
  · simp at h
  · split at h
    · simp at h
    · split at h
      · simp only [Except.ok.injEq] at h
        subst h
        refine ⟨hu, hub, nodup_append_fresh Photo.ID _ _ hp ?_, ?_⟩
        · intro y hy
          have := hpb y hy
          show y.ID ≠ db.photoSeq + 1
          omega
        · intro q hq
          simp only [List.mem_append, List.mem_singleton] at hq
          rcases hq with hq | hq
          · have := hpb q hq
            show q.ID ≤ db.photoSeq + 1
            omega
          · subst hq
            exact Nat.le_refl _
      · split at h
        · simp at h
        · rename_i _ _ _ hfree
          simp only [Except.ok.injEq] at h
          subst h
          refine ⟨hu, hub, nodup_append_fresh Photo.ID _ _ hp ?_, ?_⟩
          · intro y hy hyu
            apply hfree
            simp only [List.any_eq_true, decide_eq_true_eq]
            exact ⟨y, hy, hyu⟩
          · intro q hq
            simp only [List.mem_append, List.mem_singleton] at hq
            rcases hq with hq | hq
            · exact Nat.le_trans (hpb q hq) (Nat.le_max_left _ _)
            · subst hq
              exact Nat.le_max_right _ _

theorem saveUser_keysUnique {db db' : DB} {env : Env} {u : User}
    (h : db.saveUser env u = .ok db') (hk : db.KeysUnique) : db'.KeysUnique := by
  obtain ⟨hu, hub, hp, hpb⟩ := hk
  unfold DB.saveUser at h
  split at h
  · simp at h
  · split at h
    · simp at h
    · simp only [Except.ok.injEq] at h
      subst h
      apply saveAssociations_keysUnique
      have hkeep : ∀ v ∈ db.users, (if v.ID = u.ID then u.toRow else v).ID = v.ID := by
        intro v _
        by_cases hv : v.ID = u.ID
        · rw [if_pos hv]; exact hv.symm
        · rw [if_neg hv]
      refine ⟨?_, ?_, hp, hpb⟩
      · show ((db.users.map fun v => if v.ID = u.ID then u.toRow else v).map UserRow.ID).Nodup
        rw [map_key_of_keeps UserRow.ID _ _ hkeep]
        exact hu
      · intro w hw
        obtain ⟨v, hv, hvw⟩ := List.mem_map.mp hw
        rw [← hvw, hkeep v hv]
        exact hub v hv

theorem deleteUser_keysUnique {db db' : DB} {env : Env} {u : User}
    (h : db.deleteUser env u = .ok db') (hk : db.KeysUnique) : db'.KeysUnique := by
  obtain ⟨hu, hub, hp, hpb⟩ := hk
  unfold DB.deleteUser at h
  split at h
  · simp at h
  · split at h
    · simp at h
    · simp only [Except.ok.injEq] at h
      subst h
      refine ⟨hu.sublist ((List.filter_sublist _).map _), ?_,
        hp.sublist ((List.filter_sublist _).map _), ?_⟩
      · intro v hv
        exact hub v (List.mem_of_mem_filter hv)
      · intro q hq
        exact hpb q (List.mem_of_mem_filter hq)

theorem deletePhoto_keysUnique {db db' : DB} {env : Env} {p : Photo}
    (h : db.deletePhoto env p = .ok db') (hk : db.KeysUnique) : db'.KeysUnique := by
  obtain ⟨hu, hub, hp, hpb⟩ := hk
  unfold DB.deletePhoto at h
  split at h
  · simp at h
  · split at h
    · simp at h
    · simp only [Except.ok.injEq] at h
      subst h
      refine ⟨hu, hub, hp.sublist ((List.filter_sublist _).map _), ?_⟩
      intro q hq
      exact hpb q (List.mem_of_mem_filter hq)

theorem updatesPhoto_keysUnique {db db' : DB} {env : Env} {photo upd : Photo}
    (h : db.updatesPhoto env photo upd = .ok db') (hk : db.KeysUnique) : db'.KeysUnique := by
  obtain ⟨hu, hub, hp, hpb⟩ := hk
  unfold DB.updatesPhoto at h
  split at h
  · simp at h
  · split at h
    · simp at h
    · split at h
      · simp at h
      · split at h
        · simp at h
        · simp only [Except.ok.injEq] at h
          subst h
          have hkeep : ∀ q ∈ db.photos,
              (if q.ID = photo.ID then q.assignNonZero upd else q).ID = q.ID := by
            intro q _
            by_cases hq : q.ID = photo.ID
            · rw [if_pos hq]; rfl
            · rw [if_neg hq]
          refine ⟨hu, hub, ?_, ?_⟩
          · show ((db.photos.map fun q =>
              if q.ID = photo.ID then q.assignNonZero upd else q).map Photo.ID).Nodup
            rw [map_key_of_keeps Photo.ID _ _ hkeep]
            exact hp
          · intro w hw
            obtain ⟨q, hq, hqw⟩ := List.mem_map.mp hw
            rw [← hqw, hkeep q hq]
            exact hpb q hq

/-- Every handler and the middleware keep the primary keys. -/
theorem handlers_keep_keysUnique (jwt : JwtLib) (c : Ctx) (hk : c.db.KeysUnique) :
    (registerUser c).db.KeysUnique ∧ (loginUser jwt c).db.KeysUnique ∧
    (jwtAuthMiddleware jwt c).db.KeysUnique ∧ (updateUser c).db.KeysUnique ∧
    (deleteUser c).db.KeysUnique ∧ (addPhoto c).db.KeysUnique ∧
    (getPhotos c).db.KeysUnique ∧ (updatePhoto c).db.KeysUnique ∧
    (deletePhoto c).db.KeysUnique := by
  refine ⟨?_, ?_, ?_, ?_, ?_, ?_, ?_, ?_, ?_⟩
  · dsimp only [registerUser]
    repeat' split
    all_goals first
      | exact hk
      | (rename_i hcr; exact createUser_keysUnique hcr hk)
  · dsimp only [loginUser]
    repeat' split
    all_goals exact hk
  · dsimp only [jwtAuthMiddleware]
    repeat' split
    all_goals exact hk
  · dsimp only [updateUser]
    repeat' split
    all_goals first
      | exact hk
      | (rename_i hcr; exact saveUser_keysUnique hcr hk)
  · dsimp only [deleteUser]
    repeat' split
    all_goals first
      | exact hk
      | (rename_i hcr; exact deleteUser_keysUnique hcr hk)
  · dsimp only [addPhoto]
    repeat' split
    all_goals first
      | exact hk
      | (rename_i hcr; exact createPhoto_keysUnique hcr hk)
  · dsimp only [getPhotos]
    repeat' split
    all_goals exact hk
  · dsimp only [updatePhoto]
    repeat' split
    all_goals first
      | exact hk
      | (rename_i hcr; exact updatesPhoto_keysUnique hcr hk)
  · dsimp only [deletePhoto]
    repeat' split
    all_goals first
      | exact hk
      | (rename_i hcr; exact deletePhoto_keysUnique hcr hk)

/-- Under the primary key a stored user is the only row with its identifier. -/
theorem keysUnique_row {db : DB} (hk : db.KeysUnique) {user : UserRow} (hmem : user ∈ db.users) :
    ∀ v ∈ db.users, v.ID = user.ID → v = user := by
  intro v hv hid
  exact List.inj_on_of_nodup_map hk.1 hv hmem hid

/-! ### The schema holds in every reachable state -/

theorem run_keeps (P : DB → Prop) (hs : List HandlerFunc)
    (hkeep : ∀ h ∈ hs, ∀ c : Ctx, P c.db → P (h c).db) :
    ∀ c : Ctx, P c.db → P (run hs c).db := by
  induction hs with
  | nil => intro c hc; exact hc
  | cons h t ih =>
    intro c hc
    have hh := hkeep h (List.mem_cons_self _ _) c hc
    unfold run
    split
    · exact hh
    · exact ih (fun g hg => hkeep g (List.mem_cons_of_mem _ hg)) _ hh

theorem emptyDB_schema : emptyDB.OwnersStored ∧ emptyDB.KeysUnique := by
  refine ⟨fun p hp => by simp [emptyDB] at hp, ?_⟩
  simp [DB.KeysUnique, emptyDB]

/-- The foreign key and the primary keys hold in the empty database
(`emptyDB_schema`) and each is kept by every request the server handles, so
both hold in every state the server can reach. -/
theorem serve_keeps_schema (jwt : JwtLib) (r : Route) (req : Request) (env : Env) (db : DB) :
    (db.OwnersStored → (serve jwt r req env db).db.OwnersStored) ∧
    (db.KeysUnique → (serve jwt r req env db).db.KeysUnique) := by
  have hmain : ∀ h ∈ main jwt r, h = registerUser ∨ h = loginUser jwt ∨
      h = jwtAuthMiddleware jwt ∨ h = updateUser ∨ h = deleteUser ∨ h = addPhoto ∨
      h = getPhotos ∨ h = updatePhoto ∨ h = deletePhoto := by
    intro h hh
    cases r <;> simp only [main, List.mem_cons, List.mem_singleton, List.not_mem_nil,
      or_false] at hh
    all_goals first
      | (rcases hh with hh | hh <;> subst hh <;> simp)
      | (subst hh; simp)
  constructor
  · intro hfk
    apply run_keeps DB.OwnersStored _ _ _ hfk
    intro h hh c hc
    have hall := handlers_keep_ownersStored jwt c hc
    rcases hmain h hh with e | e | e | e | e | e | e | e | e <;> subst e
    · exact hall.1
    · exact hall.2.1
    · exact hall.2.2.1
    · exact hall.2.2.2.1
    · exact hall.2.2.2.2.1
    · exact hall.2.2.2.2.2.1
    · exact hall.2.2.2.2.2.2.1
    · exact hall.2.2.2.2.2.2.2.1
    · exact hall.2.2.2.2.2.2.2.2
  · intro hk
    apply run_keeps DB.KeysUnique _ _ _ hk
    intro h hh c hc
    have hall := handlers_keep_keysUnique jwt c hc
    rcases hmain h hh with e | e | e | e | e | e | e | e | e <;> subst e
    · exact hall.1
    · exact hall.2.1
    · exact hall.2.2.1
    · exact hall.2.2.2.1
    · exact hall.2.2.2.2.1
    · exact hall.2.2.2.2.2.1
    · exact hall.2.2.2.2.2.2.1
    · exact hall.2.2.2.2.2.2.2.1
    · exact hall.2.2.2.2.2.2.2.2

/-- Every reachable state satisfies the foreign key and the primary keys. -/
theorem reachable_schema (jwt : JwtLib) (db : DB) (h : Reachable jwt db) :
    db.OwnersStored ∧ db.KeysUnique := by
  induction h with
  | empty => exact emptyDB_schema
  | served r req env db _ ih =>
    exact ⟨(serve_keeps_schema jwt r req env db).1 ih.1,
      (serve_keeps_schema jwt r req env db).2 ih.2⟩

/-! ### Deleting a user -/

/-- C8: for every stored state and every stored user addressed by the path
identifier, `deleteUser` succeeds with 200 when neither its read nor its write
fails, and a `deleteUser` that answers 200 removes the user and every photo the
user owns (the number of stored photos drops by the number owned) and keeps
every other user and every photo of another owner as they were; if the owner
of every stored photo was a stored user before, as the foreign key of the
schema has it, that is still so afterwards. -/
theorem deleteUser_cascades_to_photos (c : Ctx) (user : UserRow)
    (hmem : user ∈ c.db.users) (hid : user.ID = c.req.userId) :
    (c.env.readFails = false → c.env.writeFails = false → user.ID ≠ 0 →
      (deleteUser c).response = some ⟨StatusOK, .message "User berhasil dihapus"⟩) ∧
    ((∃ body, (deleteUser c).response = some ⟨StatusOK, body⟩) →
      (deleteUser c).db.users = c.db.users.filter (fun v => v.ID ≠ user.ID) ∧
      (deleteUser c).db.photos = c.db.photos.filter (fun p => p.UserID ≠ user.ID) ∧
      user ∉ (deleteUser c).db.users ∧
      (∀ p ∈ c.db.photos, p.UserID = user.ID → p ∉ (deleteUser c).db.photos) ∧
      (∀ v ∈ c.db.users, v.ID ≠ user.ID → v ∈ (deleteUser c).db.users) ∧
      (∀ p ∈ c.db.photos, p.UserID ≠ user.ID → p ∈ (deleteUser c).db.photos) ∧
      (deleteUser c).db.photos.length + c.db.photos.countP (fun p => p.UserID = user.ID)
        = c.db.photos.length ∧
      (c.db.OwnersStored → (deleteUser c).db.OwnersStored)) := by
  constructor
  · intro hr hw hz
    obtain ⟨found, hf⟩ := firstUser_of_mem hr hmem
    rw [hid] at hf
    have hfid : found.ID ≠ 0 := by rw [(firstUser_ok hf).2.2.1, ← hid]; exact hz
    simp [deleteUser, hf, DB.deleteUser, hw, hfid, Ctx.JSON]
  rintro ⟨body, hresp⟩
  have hdb : (deleteUser c).db.users = c.db.users.filter (fun v => v.ID ≠ user.ID) ∧
      (deleteUser c).db.photos = c.db.photos.filter (fun p => p.UserID ≠ user.ID) := by
    cases hf : c.db.firstUser c.env c.req.userId with
    | error e =>
      simp [deleteUser, hf, Ctx.JSON, StatusNotFound, StatusOK] at hresp
    | ok found =>
      have hfid : found.ID = user.ID := by rw [(firstUser_ok hf).2.2.1, hid]
      cases hd : c.db.deleteUser c.env found with
      | error e =>
        simp [deleteUser, hf, hd, Ctx.JSON, StatusInternalServerError, StatusOK] at hresp
      | ok db' =>
        unfold DB.deleteUser at hd
        cases hw : c.env.writeFails with
        | true => simp [hw] at hd
        | false =>
          by_cases hz : found.ID = 0
          · simp [hw, hz] at hd
          · have hz' : ¬ user.ID = 0 := by rw [← hfid]; exact hz
            simp [deleteUser, hf, DB.deleteUser, hw, hz', Ctx.JSON, hfid]
  obtain ⟨hu, hp⟩ := hdb
  refine ⟨hu, hp, ?_, ?_, ?_, ?_, ?_, ?_⟩
  · rw [hu]; simp
  · intro p _ hpo
    rw [hp]; simp [hpo]
  · intro v hv hne
    rw [hu]; simp [hv, hne]
  · intro p hpm hne
    rw [hp]; simp [hpm, hne]
  · rw [hp]
    have := List.length_eq_countP_add_countP (fun p : Photo => decide (p.UserID = user.ID))
      (l := c.db.photos)
    rw [List.countP_eq_length_filter (l := c.db.photos)
      (p := fun a => ¬ (decide (a.UserID = user.ID)) = true)] at this
    have hfil : (c.db.photos.filter fun p => decide (p.UserID ≠ user.ID))
        = c.db.photos.filter fun a => decide (¬ (decide (a.UserID = user.ID)) = true) := by
      congr 1
      funext a
      simp
    rw [hfil]
    omega
  · intro hfk p hpm
    rw [hp] at hpm
    simp only [List.mem_filter, decide_eq_true_eq] at hpm
    obtain ⟨u, hum, huid⟩ := hfk p hpm.1
    refine ⟨u, ?_, huid⟩
    rw [hu]
    simp only [List.mem_filter, decide_eq_true_eq]
    exact ⟨hum, by rw [huid]; exact hpm.2⟩

theorem albumDB_ownersStored : albumDB.OwnersStored := by
  intro p hp
  simp only [albumDB, List.mem_cons, List.mem_singleton, List.not_mem_nil, or_false] at hp
  rcases hp with h | h | h <;> subst h <;> decide

theorem deleteUser_cascades_to_photos_witness :
    alice ∈ albumDB.users ∧ alice.ID = bareRequest.userId ∧ albumDB.OwnersStored ∧
    (deleteUser (Ctx.fresh bareRequest (calm 0) albumDB)).response
      = some ⟨StatusOK, .message "User berhasil dihapus"⟩ ∧
    (deleteUser (Ctx.fresh bareRequest (calm 0) albumDB)).db.users = [bob] ∧
    (deleteUser (Ctx.fresh bareRequest (calm 0) albumDB)).db.photos
      = [⟨2, "dog", "rex", "http://x/2.png", 2⟩] ∧
    (deleteUser (Ctx.fresh bareRequest (calm 0) albumDB)).db.photos.length + 2
      = albumDB.photos.length ∧
    (deleteUser (Ctx.fresh bareRequest (calm 0) albumDB)).db.OwnersStored := by
  have h := deleteUser_cascades_to_photos (Ctx.fresh bareRequest (calm 0) albumDB) alice
    (by decide) rfl
  have hok := h.1 rfl rfl (by decide)
  have hrest := h.2 ⟨_, hok⟩
  exact ⟨by decide, rfl, albumDB_ownersStored, hok, hrest.1.trans (by decide),
    hrest.2.1.trans (by decide), hrest.2.2.2.2.2.2.1,
    hrest.2.2.2.2.2.2.2 albumDB_ownersStored⟩

/-! ### Malformed bodies -/

/-- C9, as the code has it: `registerUser`, `loginUser` and `addPhoto` answer a
body that is not well-formed JSON with 400 and the decoder's message, in every
stored state.  `updateUser` and `updatePhoto` look the record up first: they
answer such a body with 400 and the decoder's message when the lookup of the
path identifier succeeds, and with 404 when it does not, whatever the body
is.  The stored state is unchanged throughout. -/
theorem malformed_body_is_400_after_lookup (jwt : JwtLib) (c : Ctx) (e : String) :
    (c.req.bindUser = .error e →
      (registerUser c).response = some ⟨StatusBadRequest, .error e⟩ ∧
      (registerUser c).db = c.db) ∧
    (c.req.bindCredentials = .error e →
      (loginUser jwt c).response = some ⟨StatusBadRequest, .error e⟩ ∧
      (loginUser jwt c).db = c.db) ∧
    (c.req.bindPhoto = .error e →
      (addPhoto c).response = some ⟨StatusBadRequest, .error e⟩ ∧ (addPhoto c).db = c.db) ∧
    (c.req.bindUser = .error e → ∀ user, c.db.firstUser c.env c.req.userId = .ok user →
      (updateUser c).response = some ⟨StatusBadRequest, .error e⟩ ∧
      (updateUser c).db = c.db) ∧
    (c.req.bindPhoto = .error e → ∀ photo, c.db.firstPhoto c.env c.req.photoId = .ok photo →
      (updatePhoto c).response = some ⟨StatusBadRequest, .error e⟩ ∧
      (updatePhoto c).db = c.db) ∧
    (∀ err, c.db.firstUser c.env c.req.userId = .error err →
      (updateUser c).response = some ⟨StatusNotFound, .error "Pengguna tidak ditemukan"⟩ ∧
      (updateUser c).db = c.db) ∧
    (∀ err, c.db.firstPhoto c.env c.req.photoId = .error err →
      (updatePhoto c).response = some ⟨StatusNotFound, .error "Foto tidak ditemukan"⟩ ∧
      (updatePhoto c).db = c.db) := by
  refine ⟨?_, ?_, ?_, ?_, ?_, ?_, ?_⟩
  · intro h; simp [registerUser, h, Ctx.JSON]
  · intro h; simp [loginUser, h, Ctx.JSON]
  · intro h; simp [addPhoto, h, Ctx.JSON]
  · intro h user hf; simp [updateUser, h, hf, Ctx.JSON]
  · intro h photo hf; simp [updatePhoto, h, hf, Ctx.JSON]
  · intro err hf; simp [updateUser, hf, Ctx.JSON]
  · intro err hf; simp [updatePhoto, hf, Ctx.JSON]

theorem malformed_body_is_400_after_lookup_witness :
    bareRequest.bindUser = .error "invalid character" ∧
    sampleDB.firstUser (calm 0) bareRequest.userId = .ok alice.toUser ∧
    (updateUser (Ctx.fresh bareRequest (calm 0) sampleDB)).response
      = some ⟨StatusBadRequest, .error "invalid character"⟩ ∧
    (registerUser (Ctx.fresh bareRequest (calm 0) sampleDB)).response
      = some ⟨StatusBadRequest, .error "invalid character"⟩ :=
  ⟨rfl, by decide,
    ((malformed_body_is_400_after_lookup clearJwt (Ctx.fresh bareRequest (calm 0) sampleDB)
      "invalid character").2.2.2.1 rfl alice.toUser (by decide)).1,
    ((malformed_body_is_400_after_lookup clearJwt (Ctx.fresh bareRequest (calm 0) sampleDB)
      "invalid character").1 rfl).1⟩

/-- Counterexample to C9 as stated: with no user stored, `updateUser` answers a
malformed body on path identifier 1 with 404, not with 400. -/
theorem updateUser_malformed_body_unknown_user_is_404 :
    bareRequest.bindUser = .error "invalid character" ∧
    (updateUser (Ctx.fresh bareRequest (calm 0) emptyDB)).response
      = some ⟨StatusNotFound, .error "Pengguna tidak ditemukan"⟩ := by
  decide

/-! ### Failures of the persistence layer -/

/-- C10, as the code has it: in every handler a failed insert, save, update,
delete or listing is answered 500 with that handler's fixed message, and a
failed lookup, whatever the reason of the failure, is answered 401 with the
generic credentials message in `loginUser` and 404 in the four handlers that
resolve a path identifier.  The stored state is unchanged in each case. -/
theorem persistence_failure_answers (jwt : JwtLib) (c : Ctx) (err : DBError) :
    (∀ user, c.req.bindUser = .ok user → user.ID ≠ 0 → user.Username ≠ "" →
      user.Email ≠ "" → 6 ≤ len user.Password → c.db.createUser c.env user = .error err →
      (registerUser c).response
        = some ⟨StatusInternalServerError, .error "Gagal menyimpan user ke database"⟩ ∧
      (registerUser c).db = c.db) ∧
    (∀ user body, c.db.firstUser c.env c.req.userId = .ok user → c.req.bindUser = .ok body →
      body.Username ≠ "" → body.Email ≠ "" →
      c.db.saveUser c.env { user with Username := body.Username, Email := body.Email }
        = .error err →
      (updateUser c).response
        = some ⟨StatusInternalServerError, .error "Gagal mengupdate informasi pengguna"⟩ ∧
      (updateUser c).db = c.db) ∧
    (∀ user, c.db.firstUser c.env c.req.userId = .ok user →
      c.db.deleteUser c.env user = .error err →
      (deleteUser c).response
        = some ⟨StatusInternalServerError, .error "Gagal menghapus user"⟩ ∧
      (deleteUser c).db = c.db) ∧
    (∀ photo, c.req.bindPhoto = .ok photo → photo.Title ≠ "" → photo.Caption ≠ "" →
      photo.PhotoURL ≠ "" → photo.UserID ≠ 0 → c.db.createPhoto c.env photo = .error err →
      (addPhoto c).response
        = some ⟨StatusInternalServerError, .error "Gagal menyimpan foto ke database"⟩ ∧
      (addPhoto c).db = c.db) ∧
    (c.db.findPhotos c.env = .error err →
      (getPhotos c).response
        = some ⟨StatusInternalServerError, .error "Gagal mendapatkan foto dari database"⟩ ∧
      (getPhotos c).db = c.db) ∧
    (∀ photo body, c.db.firstPhoto c.env c.req.photoId = .ok photo →
      c.req.bindPhoto = .ok body → body.Title ≠ "" → body.Caption ≠ "" →
      body.PhotoURL ≠ "" → c.db.updatesPhoto c.env photo body = .error err →
      (updatePhoto c).response
        = some ⟨StatusInternalServerError, .error "Gagal mengupdate foto"⟩ ∧
      (updatePhoto c).db = c.db) ∧
    (∀ photo, c.db.firstPhoto c.env c.req.photoId = .ok photo →
      c.db.deletePhoto c.env photo = .error err →
      (deletePhoto c).response
        = some ⟨StatusInternalServerError, .error "Gagal menghapus foto"⟩ ∧
      (deletePhoto c).db = c.db) ∧
    (∀ cred, c.req.bindCredentials = .ok cred →
      c.db.firstUserByEmail c.env cred.Email = .error err →
      (loginUser jwt c).response
        = some ⟨StatusUnauthorized, .error "Email atau password salah"⟩ ∧
      (loginUser jwt c).db = c.db) ∧
    (c.db.firstUser c.env c.req.userId = .error err →
      (updateUser c).response = some ⟨StatusNotFound, .error "Pengguna tidak ditemukan"⟩ ∧
      (updateUser c).db = c.db ∧
      (deleteUser c).response = some ⟨StatusNotFound, .error "User tidak ditemukan"⟩ ∧
      (deleteUser c).db = c.db) ∧
    (c.db.firstPhoto c.env c.req.photoId = .error err →
      (updatePhoto c).response = some ⟨StatusNotFound, .error "Foto tidak ditemukan"⟩ ∧
      (updatePhoto c).db = c.db ∧
      (deletePhoto c).response = some ⟨StatusNotFound, .error "Foto tidak ditemukan"⟩ ∧
      (deletePhoto c).db = c.db) := by
  refine ⟨?_, ?_, ?_, ?_, ?_, ?_, ?_, ?_, ?_, ?_⟩
  · intro user hb hid hn he hpw hcr
    have hpass : user.Password ≠ "" := by
      intro h
      rw [h, len_empty] at hpw
      omega
    have hlen : ¬ len user.Password < 6 := by omega
    simp [registerUser, hb, hid, hn, he, hpass, hlen, hcr, Ctx.JSON]
  · intro user body hf hb hn he hs
    simp [updateUser, hf, hb, hn, he, hs, Ctx.JSON]
  · intro user hf hd
    simp [deleteUser, hf, hd, Ctx.JSON]
  · intro photo hb ht hc hu hid hcr
    simp [addPhoto, hb, ht, hc, hu, hid, hcr, Ctx.JSON]
  · intro hf
    simp [getPhotos, hf, Ctx.JSON]
  · intro photo body hf hb ht hc hu hup
    simp [updatePhoto, hf, hb, ht, hc, hu, hup, Ctx.JSON]
  · intro photo hf hd
    simp [deletePhoto, hf, hd, Ctx.JSON]
  · intro cred hb hf
    simp [loginUser, hb, hf, Ctx.JSON]
  · intro hf
    simp [updateUser, deleteUser, hf, Ctx.JSON]
  · intro hf
    simp [updatePhoto, deletePhoto, hf, Ctx.JSON]

theorem persistence_failure_answers_witness :
    sampleDB.firstUser (calm 0) bareRequest.userId = .ok alice.toUser ∧
    sampleDB.deleteUser { now := 0, readFails := false, writeFails := true } alice.toUser
      = .error .failure ∧
    (deleteUser (Ctx.fresh bareRequest { now := 0, readFails := false, writeFails := true }
        sampleDB)).response
      = some ⟨StatusInternalServerError, .error "Gagal menghapus user"⟩ ∧
    sampleDB.firstPhoto { now := 0, readFails := true, writeFails := false }
      bareRequest.photoId = .error .failure ∧
    (deletePhoto (Ctx.fresh bareRequest { now := 0, readFails := true, writeFails := false }
        sampleDB)).response
      = some ⟨StatusNotFound, .error "Foto tidak ditemukan"⟩ :=
  ⟨by decide, by decide,
    ((persistence_failure_answers clearJwt
      (Ctx.fresh bareRequest { now := 0, readFails := false, writeFails := true } sampleDB)
      .failure).2.2.1 alice.toUser (by decide) (by decide)).1,
    by decide,
    ((persistence_failure_answers clearJwt
      (Ctx.fresh bareRequest { now := 0, readFails := true, writeFails := false } sampleDB)
      .failure).2.2.2.2.2.2.2.2.2 (by decide)).2.2.1⟩

/-- Counterexample to C10 as stated: the lookup of `loginUser` fails for a
reason outside the tables (the credentials are those of the stored `alice`),
and the response is 401, not 500. -/
theorem loginUser_lookup_failure_is_401 :
    sampleDB.firstUserByEmail { now := 0, readFails := true, writeFails := false } "a@x.com"
      = .error .failure ∧
    (loginUser clearJwt (Ctx.fresh
        { bareRequest with bindCredentials := .ok ⟨"a@x.com", "secret1"⟩ }
        { now := 0, readFails := true, writeFails := false } sampleDB)).response
      = some ⟨StatusUnauthorized, .error "Email atau password salah"⟩ := by
  decide

end App
